import Mathlib

/-!
Shallow embedding of the Tock resource-arbitration capsules:
`capsules/core/src/virtualizers/virtual_pwm.rs`, `capsules/core/src/adc.rs`
(`AdcVirtualized` and `AdcDedicated`), `capsules/core/src/rng.rs` and
`capsules/extra/src/nonvolatile_storage_driver.rs`.

Machine integers (`usize`, `u32`, `u16`) are modelled as `Nat`; the claims
exercise no overflow.  `OptionalCell`/`TakeCell` become `Option`.  Grant
regions become association lists `List (Nat × App)` keyed by process id;
per the spec (section 6) `enter` succeeds exactly on live records and
iteration yields live records in allocation order.  Hardware drivers are
modelled as explicit state that records, for each operation-start call, a
sticky `violation` flag when a start arrives while one is in flight.
-/

namespace Tock

/-- Subset of `kernel::ErrorCode` used by the modelled capsules. -/
inductive ErrorCode where
  | fail
  | busy
  | inval
  | nomem
  | nodevice
  | reserve
  | nosupport
  deriving DecidableEq, Repr

/-- Model of `kernel::syscall::CommandReturn`. -/
inductive CommandReturn where
  | success
  | successU32 (v : Nat)
  | failure (e : ErrorCode)
  deriving DecidableEq, Repr

/-- A scheduled upcall: process id, subscribe number, and the three
machine-word arguments handed to `schedule_upcall`. -/
structure Upcall where
  pid : Nat
  sub : Nat
  arg0 : Nat
  arg1 : Nat
  arg2 : Nat
  deriving DecidableEq, Repr

/-- Lookup in an association list keyed by process id (model of
`Grant::enter`: succeeds exactly on live records). -/
def alookup (pid : Nat) : List (Nat × α) → Option α
  | [] => none
  | (q, a) :: rest => if q = pid then some a else alookup pid rest

/-- Pointwise update of the record of one process id. -/
def aupdate (pid : Nat) (f : α → α) : List (Nat × α) → List (Nat × α)
  | [] => []
  | (q, a) :: rest => if q = pid then (q, f a) :: rest else (q, a) :: aupdate pid f rest

/-! ## Virtual PWM (`virtual_pwm.rs`) -/

/-- `Operation` from `virtual_pwm.rs`. -/
inductive PwmOp where
  | simple (frequency_hz duty_cycle : Nat)
  | stop
  deriving DecidableEq, Repr

/-- A call made on the underlying `hil::pwm::Pwm` hardware; the pin is
identified with the owning `PwmPinUser`. -/
inductive PwmHwCall where
  | start (pin frequency_hz duty_cycle : Nat)
  | stop (pin : Nat)
  deriving DecidableEq, Repr

/-- `PwmPinUser`: one virtual client with its one-slot pending operation.
The `id` stands for the pin identity. -/
structure PwmPinUser where
  id : Nat
  operation : Option PwmOp
  deriving DecidableEq, Repr

/-- `MuxPwm` state.  `devices` is the intrusive list, head first (the list
is built by `push_head`, so the head is the most recently registered
client).  `violation` is hardware instrumentation: it becomes true if the
pwm ever receives a `start` on behalf of a client different from the
recorded in-flight owner while one is set. -/
structure MuxPwm where
  devices : List PwmPinUser
  inflight : Option Nat
  hwLog : List PwmHwCall
  violation : Bool
  deriving DecidableEq, Repr

/-- Initial mux: no devices, idle. -/
def pwmInit : MuxPwm := ⟨[], none, [], false⟩

/-- `devices.iter().find(|node| node.operation.is_some())`. -/
def pwmFindPending : List PwmPinUser → Option PwmPinUser
  | [] => none
  | d :: rest => if d.operation.isSome then some d else pwmFindPending rest

/-- `node.operation.take()` for the device with the given id: returns the
taken operation and the device list with that slot emptied. -/
def pwmTakeOp (id : Nat) : List PwmPinUser → Option PwmOp × List PwmPinUser
  | [] => (none, [])
  | d :: rest =>
    if d.id = id then (d.operation, { d with operation := none } :: rest)
    else
      let (op, rest') := pwmTakeOp id rest
      (op, d :: rest')

/-- `node.operation.set(op)` for the device with the given id
(`OptionalCell::set` overwrites unconditionally). -/
def pwmSetOp (id : Nat) (op : PwmOp) (devs : List PwmPinUser) : List PwmPinUser :=
  devs.map fun d => if d.id = id then { d with operation := some op } else d

/-- Number of occupied pending slots; used as recursion fuel for
`do_next_op`. -/
def pwmOpsCount (devs : List PwmPinUser) : Nat :=
  devs.countP fun d => d.operation.isSome

/-- `self.pwm.start(&node.pin, f, d)`: the hardware receives a start on
behalf of device `pin`.  Instrumentation: starting on behalf of a client
different from the current in-flight owner sets `violation`. -/
def pwmHwStart (m : MuxPwm) (pin f d : Nat) : MuxPwm :=
  { m with
    hwLog := m.hwLog ++ [.start pin f d]
    violation := m.violation || (match m.inflight with
      | some c => decide (c ≠ pin)
      | none => false) }

/-- `self.pwm.stop(&node.pin)`. -/
def pwmHwStop (m : MuxPwm) (pin : Nat) : MuxPwm :=
  { m with hwLog := m.hwLog ++ [.stop pin] }

/-- `MuxPwm::do_next_op`, with explicit fuel for the recursion (each
recursive call in the source happens after one pending operation has been
taken, so `pwmOpsCount + 1` fuel suffices). -/
def doNextOpF : Nat → MuxPwm → MuxPwm
  | 0, m => m
  | fuel + 1, m =>
    match m.inflight with
    | none =>
      match pwmFindPending m.devices with
      | none => m
      | some node =>
        let (op?, devs) := pwmTakeOp node.id m.devices
        let m1 := { m with devices := devs }
        match op? with
        | some (.simple f d) =>
          -- started = true: start the hardware, set inflight
          let m2 := pwmHwStart m1 node.id f d
          { m2 with inflight := some node.id }
        | some .stop =>
          -- "Can't stop if nothing is running": started = false, keep looking
          doNextOpF fuel m1
        | none =>
          -- map_or(false, ..): started = false, keep looking
          doNextOpF fuel m1
    | some c =>
      let (op?, devs) := pwmTakeOp c m.devices
      let m1 := { m with devices := devs }
      match op? with
      | none => m
      | some (.simple f d) =>
        -- changed some parameter; recurse in case there is more to do
        doNextOpF fuel (pwmHwStart m1 c f d)
      | some .stop =>
        let m2 := pwmHwStop m1 c
        doNextOpF fuel { m2 with inflight := none }

/-- `MuxPwm::do_next_op`. -/
def doNextOp (m : MuxPwm) : MuxPwm :=
  doNextOpF (pwmOpsCount m.devices + 1) m

/-- `PwmPinUser::add_to_mux`: `self.mux.devices.push_head(self)`. -/
def pwmAdd (m : MuxPwm) (id : Nat) : MuxPwm :=
  { m with devices := ⟨id, none⟩ :: m.devices }

/-- `PwmPinUser::start`: sets (overwrites) the pending operation, runs
`do_next_op`, and always returns `Ok(())`. -/
def pwmStart (m : MuxPwm) (id f d : Nat) : Except ErrorCode Unit × MuxPwm :=
  (Except.ok (), doNextOp { m with devices := pwmSetOp id (.simple f d) m.devices })

/-- `PwmPinUser::stop`: sets (overwrites) the pending operation with
`Stop`, runs `do_next_op`, and always returns `Ok(())`. -/
def pwmStop (m : MuxPwm) (id : Nat) : Except ErrorCode Unit × MuxPwm :=
  (Except.ok (), doNextOp { m with devices := pwmSetOp id .stop m.devices })

/-- Client-visible events on the PWM mux. -/
inductive PwmEv where
  | add (id : Nat)
  | start (id f d : Nat)
  | stop (id : Nat)
  deriving DecidableEq, Repr

/-- One event step on the mux. -/
def pwmStep (m : MuxPwm) : PwmEv → MuxPwm
  | .add id => pwmAdd m id
  | .start id f d => (pwmStart m id f d).2
  | .stop id => (pwmStop m id).2

/-- Run a sequence of events from the initial mux. -/
def pwmRun (evs : List PwmEv) : MuxPwm :=
  evs.foldl pwmStep pwmInit

/-- Find the (first) device with a given id. -/
def pwmFindDev (id : Nat) : List PwmPinUser → Option PwmPinUser
  | [] => none
  | d :: rest => if d.id = id then some d else pwmFindDev id rest

/-- Read the pending slot of a device. -/
def pwmOpOf (m : MuxPwm) (id : Nat) : Option PwmOp :=
  match pwmFindDev id m.devices with
  | some d => d.operation
  | none => none

/-! ## RNG syscall driver (`rng.rs`, `RngDriver`) -/

/-- Per-process grant record of `RngDriver` (`App` in `rng.rs`). -/
structure RngApp where
  remaining : Nat := 0
  idx : Nat := 0
  deriving DecidableEq, Repr

/-- `RngDriver` state.  `hwGetCalls` counts calls of `self.rng.get()`. -/
structure RngState where
  apps : List (Nat × RngApp)
  getting_randomness : Bool
  hwGetCalls : Nat
  deriving DecidableEq, Repr

/-- `RngDriver::command`.  Grant `enter` on a dead process fails; the
resulting `kernel::process::Error` converts to `ErrorCode::FAIL`
(modelled from the spec: the process-record collaborator is not under
`src/`). -/
def rngCommand (s : RngState) (num data pid : Nat) : CommandReturn × RngState :=
  match num with
  | 0 => (.success, s)
  | 1 =>
    match alookup pid s.apps with
    | none => (.failure .fail, s)
    | some _ =>
      let s1 := { s with apps := aupdate pid (fun _ => ⟨data, 0⟩) s.apps }
      if s1.getting_randomness then (.success, s1)
      else (.success, { s1 with getting_randomness := true, hwGetCalls := s1.hwGetCalls + 1 })
  | _ => (.failure .nosupport, s)

/-! ## Nonvolatile storage driver (`nonvolatile_storage_driver.rs`) -/

/-- `NonvolatileCommand`. -/
inductive NvCommand where
  | userspaceRead
  | userspaceWrite
  | kernelRead
  | kernelWrite
  deriving DecidableEq, Repr

/-- `NonvolatileUser`. -/
inductive NvUser where
  | app (pid : Nat)
  | kernel
  deriving DecidableEq, Repr

/-- Per-process grant record of the nonvolatile driver (`App` in the
source), together with that process's allowed buffers (`kernel_data`
read-only `WRITE` slice and read-write `READ` slice), flattened in here
for the model. -/
structure NvApp where
  pending_command : Bool := false
  command : NvCommand := .userspaceRead
  offset : Nat := 0
  length : Nat := 0
  writeBuf : List Nat := []
  readBuf : List Nat := []
  deriving DecidableEq, Repr

/-- The underlying physical storage driver.  The HIL `read`/`write` moves
the buffer into the driver unconditionally; an accepted call sets `busy`
until the capsule's completion callback runs. -/
structure NvHw where
  busy : Bool := false
  heldBuf : Option (List Nat) := none
  op : Option NvCommand := none
  addr : Nat := 0
  len : Nat := 0
  deriving DecidableEq, Repr

/-- Kernel-client callbacks delivered by the capsule (`read_done` /
`write_done` of `self.kernel_client`), with their `length` argument. -/
inductive NvKernelCb where
  | readDone (length : Nat)
  | writeDone (length : Nat)
  deriving DecidableEq, Repr

/-- `NonvolatileStorage` state. -/
structure NvState where
  apps : List (Nat × NvApp)
  buffer : Option (List Nat)
  current_user : Option NvUser
  userspace_start_address : Nat
  userspace_length : Nat
  kernel_start_address : Nat
  kernel_length : Nat
  kernel_pending_command : Bool
  kernel_command : NvCommand
  kernel_buffer : Option (List Nat)
  kernel_readwrite_length : Nat
  kernel_readwrite_address : Nat
  hw : NvHw
  upcalls : List Upcall
  kernelCbs : List NvKernelCb
  deriving DecidableEq, Repr

/-- `self.driver.read(buffer, addr, len)` / `write`: the buffer moves to
the hardware; the accept/reject outcome is an oracle input. -/
def nvDriverCall (s : NvState) (command : NvCommand) (buf : List Nat)
    (addr len : Nat) (accept : Option ErrorCode) :
    Except ErrorCode Unit × NvState :=
  match accept with
  | none =>
    (Except.ok (),
     { s with hw := { busy := true, heldBuf := some buf, op := some command,
                      addr := addr, len := len } })
  | some e => (Except.error e, { s with hw := { s.hw with heldBuf := some buf } })

/-- `NonvolatileStorage::userspace_call_driver`. -/
def nvUserspaceCallDriver (s : NvState) (command : NvCommand) (offset length : Nat)
    (accept : Option ErrorCode) : Except ErrorCode Unit × NvState :=
  let physical_address := offset + s.userspace_start_address
  match s.buffer with
  | none => (Except.error .reserve, s)
  | some buffer =>
    let active_len := min length buffer.length
    let s1 := { s with buffer := none }
    match command with
    | .userspaceRead => nvDriverCall s1 command buffer physical_address active_len accept
    | .userspaceWrite => nvDriverCall s1 command buffer physical_address active_len accept
    | _ => (Except.error .fail, s1)

/-- Copy `write_len` bytes from the app's allowed write buffer into the
internal buffer (the write-path copy in `enqueue_command`). -/
def nvCopyIn (appBuf kernelBuf : List Nat) (write_len : Nat) : List Nat :=
  appBuf.take write_len ++ kernelBuf.drop write_len

/-- `NonvolatileStorage::enqueue_command` (the `processid` argument is
`Some pid` for the userspace commands and `None` for kernel ones). -/
def nvEnqueueCommand (s : NvState) (command : NvCommand) (offset length : Nat)
    (processid : Option Nat) (accept : Option ErrorCode) :
    Except ErrorCode Unit × NvState :=
  -- bounds check
  let boundsOk :=
    match command with
    | .userspaceRead | .userspaceWrite =>
      !(offset ≥ s.userspace_length || length > s.userspace_length ||
        offset + length > s.userspace_length)
    | .kernelRead | .kernelWrite =>
      !(offset < s.kernel_start_address ||
        offset ≥ s.kernel_start_address + s.kernel_length ||
        length > s.kernel_length ||
        offset + length > s.kernel_start_address + s.kernel_length)
  if !boundsOk then (Except.error .inval, s)
  else
    match command with
    | .userspaceRead | .userspaceWrite =>
      match processid with
      | none => (Except.error .fail, s)
      | some pid =>
        match alookup pid s.apps with
        | none => (Except.error .fail, s)
        | some app =>
          let allow_buf_len :=
            match command with
            | .userspaceRead => app.readBuf.length
            | .userspaceWrite => app.writeBuf.length
            | _ => 0
          if allow_buf_len = 0 || s.buffer.isNone then (Except.error .reserve, s)
          else
            let active_len := min length allow_buf_len
            if s.current_user.isNone then
              let s1 := { s with current_user := some (.app pid) }
              -- need to copy bytes if this is a write
              let s2 :=
                if command = .userspaceWrite then
                  match s1.buffer with
                  | some kernel_buffer =>
                    let write_len := min active_len kernel_buffer.length
                    { s1 with buffer := some (nvCopyIn app.writeBuf kernel_buffer write_len) }
                  | none => s1
                else s1
              nvUserspaceCallDriver s2 command offset active_len accept
            else
              if app.pending_command then (Except.error .nomem, s)
              else
                (Except.ok (),
                 { s with apps := aupdate pid (fun a =>
                     { a with pending_command := true, command := command,
                              offset := offset, length := active_len }) s.apps })
    | .kernelRead | .kernelWrite =>
      match s.kernel_buffer with
      | none => (Except.error .nomem, s)
      | some kernel_buffer =>
        let active_len := min length kernel_buffer.length
        let s1 := { s with kernel_buffer := none }
        if s1.current_user.isNone then
          let s2 := { s1 with current_user := some .kernel }
          nvDriverCall s2 command kernel_buffer offset active_len accept
        else
          if s1.kernel_pending_command then (Except.error .nomem, s1)
          else
            (Except.ok (),
             { s1 with kernel_pending_command := true, kernel_command := command,
                       kernel_readwrite_length := active_len,
                       kernel_readwrite_address := offset,
                       kernel_buffer := some kernel_buffer })

/-- `NonvolatileStorage::check_queue`: the kernel's pending slot is
checked first; otherwise the live process records are scanned in
allocation order (modelled from the spec: grant iteration yields live
records in allocation order).  The `accept` oracle list supplies one
outcome per driver call attempted. -/
def nvCheckQueueApps (s : NvState) (accept : List (Option ErrorCode)) :
    List Nat → NvState
  | [] => s
  | pid :: rest =>
    match alookup pid s.apps with
    | none => nvCheckQueueApps s accept rest
    | some app =>
      if app.pending_command then
        let s1 := { s with apps := aupdate pid (fun a => { a with pending_command := false }) s.apps }
        let s2 := { s1 with current_user := some (.app pid) }
        let (r, s3) := nvUserspaceCallDriver s2 app.command app.offset app.length
          (accept.headD none)
        match r with
        | .ok _ => s3
        | .error _ => nvCheckQueueApps s3 accept.tail rest
      else nvCheckQueueApps s accept rest

/-- `NonvolatileStorage::check_queue`. -/
def nvCheckQueue (s : NvState) (accept : List (Option ErrorCode)) : NvState :=
  if s.kernel_pending_command then
    match s.kernel_buffer with
    | none => s
    | some kernel_buffer =>
      let s1 := { s with kernel_buffer := none, kernel_pending_command := false,
                         current_user := some .kernel }
      (nvDriverCall s1 s1.kernel_command kernel_buffer s1.kernel_readwrite_address
        s1.kernel_readwrite_length (accept.headD none)).2
  else
    nvCheckQueueApps s accept (s.apps.map Prod.fst)

/-- Copy `read_len` bytes of the returned buffer into the app's allowed
read buffer (the copy in `read_done`). -/
def nvCopyOut (buffer appBuf : List Nat) (read_len : Nat) : List Nat :=
  buffer.take read_len ++ appBuf.drop read_len

/-- `NonvolatileStorageClient::read_done` for the capsule.  Note the
source replaces `self.buffer` only inside the grant-enter closure: when
the owning process no longer exists the returned buffer is dropped. -/
def nvReadDone (s : NvState) (buffer : List Nat) (length : Nat)
    (accept : List (Option ErrorCode)) : NvState :=
  let s0 := { s with hw := { s.hw with busy := false, heldBuf := none } }
  let s1 :=
    match s0.current_user with
    | none => s0
    | some user =>
      let s0 := { s0 with current_user := none }
      match user with
      | .kernel =>
        { s0 with kernelCbs := s0.kernelCbs ++ [.readDone length] }
      | .app pid =>
        match alookup pid s0.apps with
        | none => s0
        | some app =>
          let read_len := min app.readBuf.length length
          { s0 with
            apps := aupdate pid (fun a =>
              { a with readBuf := nvCopyOut buffer a.readBuf read_len }) s0.apps
            buffer := some buffer
            upcalls := s0.upcalls ++ [⟨pid, 0, length, 0, 0⟩] }
  nvCheckQueue s1 accept

/-- `NonvolatileStorageClient::write_done` for the capsule; like
`read_done`, a vanished owner means the buffer is dropped. -/
def nvWriteDone (s : NvState) (buffer : List Nat) (length : Nat)
    (accept : List (Option ErrorCode)) : NvState :=
  let s0 := { s with hw := { s.hw with busy := false, heldBuf := none } }
  let s1 :=
    match s0.current_user with
    | none => s0
    | some user =>
      let s0 := { s0 with current_user := none }
      match user with
      | .kernel =>
        { s0 with kernelCbs := s0.kernelCbs ++ [.writeDone length] }
      | .app pid =>
        match alookup pid s0.apps with
        | none => s0
        | some _ =>
          { s0 with
            buffer := some buffer
            upcalls := s0.upcalls ++ [⟨pid, 1, length, 0, 0⟩] }
  nvCheckQueue s1 accept

/-- `SyscallDriver::command` for the nonvolatile driver. -/
def nvCommand (s : NvState) (num offset length pid : Nat)
    (accept : Option ErrorCode) : CommandReturn × NvState :=
  match num with
  | 0 => (.success, s)
  | 1 => (.successU32 s.userspace_length, s)
  | 2 =>
    match nvEnqueueCommand s .userspaceRead offset length (some pid) accept with
    | (.ok _, s1) => (.success, s1)
    | (.error e, s1) => (.failure e, s1)
  | 3 =>
    match nvEnqueueCommand s .userspaceWrite offset length (some pid) accept with
    | (.ok _, s1) => (.success, s1)
    | (.error e, s1) => (.failure e, s1)
  | _ => (.failure .nosupport, s)

/-! ## Virtualized ADC syscall driver (`adc.rs`, `AdcVirtualized`) -/

/-- Modelled from the spec: the `Operation` enum of the virtual ADC
(`virtualizers/virtual_adc.rs` is not among the provided sources); the
spec describes a closed set of request variants, and `AdcVirtualized`
matches only `Operation::OneSample` exhaustively. -/
inductive AdcOperation where
  | oneSample
  deriving DecidableEq, Repr

/-- Per-process grant record of `AdcVirtualized` (`AppSys` in `adc.rs`). -/
structure AppSys where
  pending_command : Bool := false
  command : Option AdcOperation := none
  channel : Nat := 0
  deriving DecidableEq, Repr

/-- `AdcVirtualized` state.  `hwBusy` models the underlying per-channel
ADC drivers as one exclusive resource with a single in-flight sample;
`violation` is hardware instrumentation recording a `sample()` start call
arriving while one is already in flight. -/
structure AdcVState where
  numDrivers : Nat
  apps : List (Nat × AppSys)
  current_process : Option Nat
  hwBusy : Bool
  violation : Bool
  upcalls : List Upcall
  deriving DecidableEq, Repr

/-- Initial state with `n` channels. -/
def advInit (n : Nat) : AdcVState :=
  ⟨n, [], none, false, false, []⟩

/-- `AdcVirtualized::call_driver`: `self.drivers[channel].sample()`.  The
accept/reject outcome is the head of the oracle list (`none` = accepted,
`some e` = synchronously rejected with reason `e`).  The channel bound
always holds at call sites because `enqueue_command` checks it before
queueing. -/
def advCallDriver (s : AdcVState) (command : AdcOperation) (channel : Nat)
    (acc : List (Option ErrorCode)) :
    Except ErrorCode Unit × AdcVState × List (Option ErrorCode) :=
  match command with
  | .oneSample =>
    if channel < s.numDrivers then
      let s1 := { s with violation := s.violation || s.hwBusy }
      match acc.headD none with
      | none => (Except.ok (), { s1 with hwBusy := true }, acc.tail)
      | some e => (Except.error e, s1, acc.tail)
    else (Except.error .nodevice, s, acc.tail)

/-- The scan loop of `AdcVirtualized::run_next_command` over the process
ids alive at entry (grant iteration, modelled from the spec as allocation
order).  `cmd0` threads the loop-local `command` default. -/
def advRunNextAux (s : AdcVState) (cmd0 : AdcOperation)
    (acc : List (Option ErrorCode)) : List Nat → AdcVState
  | [] => s
  | pid :: rest =>
    match alookup pid s.apps with
    | none => advRunNextAux s cmd0 acc rest
    | some app =>
      if app.pending_command then
        let cmd := app.command.getD cmd0
        let ch := app.channel
        let s1 := { s with
          apps := aupdate pid (fun a =>
            { a with pending_command := false, command := none }) s.apps
          current_process := some pid }
        match advCallDriver s1 cmd ch acc with
        | (.ok _, s2, _) => s2
        | (.error _, s2, acc') =>
          advRunNextAux { s2 with current_process := none } cmd acc' rest
      else advRunNextAux s cmd0 acc rest

/-- `AdcVirtualized::run_next_command`. -/
def advRunNext (s : AdcVState) (acc : List (Option ErrorCode)) : AdcVState :=
  advRunNextAux s .oneSample acc (s.apps.map Prod.fst)

/-- `AdcVirtualized::enqueue_command`. -/
def advEnqueue (s : AdcVState) (command : AdcOperation) (channel pid : Nat)
    (acc : List (Option ErrorCode)) : Except ErrorCode Unit × AdcVState :=
  if channel < s.numDrivers then
    if s.current_process.isNone then
      let s1 := { s with current_process := some pid }
      let (r, s2, acc') := advCallDriver s1 command channel acc
      let s3 := match r with
        | .ok _ => s2
        | .error _ => { s2 with current_process := none }
      (Except.ok (), advRunNext s3 acc')
    else
      match alookup pid s.apps with
      | none => (Except.error .fail, s)
      | some app =>
        if app.pending_command then (Except.error .busy, s)
        else
          (Except.ok (),
           { s with apps := aupdate pid (fun a =>
               { a with pending_command := true, command := some command,
                        channel := channel }) s.apps })
  else (Except.error .nodevice, s)

/-- `hil::adc::Client::sample_ready` for `AdcVirtualized`. -/
def advSampleReady (s : AdcVState) (sample : Nat)
    (acc : List (Option ErrorCode)) : AdcVState :=
  let s1 :=
    match s.current_process with
    | none => s
    | some pid =>
      let s0 := { s with current_process := none }
      match alookup pid s0.apps with
      | none => s0
      | some app =>
        { s0 with
          apps := aupdate pid (fun a => { a with pending_command := false }) s0.apps
          upcalls := s0.upcalls ++ [⟨pid, 0, 0, app.channel, sample⟩] }
  advRunNext s1 acc

/-- `SyscallDriver::command` for `AdcVirtualized` (channel resolution /
voltage queries are left out; the claims do not exercise them, and they
touch no arbiter state). -/
def advCommand (s : AdcVState) (num channel pid : Nat)
    (acc : List (Option ErrorCode)) : CommandReturn × AdcVState :=
  match num with
  | 0 => (.successU32 s.numDrivers, s)
  | 1 =>
    match advEnqueue s .oneSample channel pid acc with
    | (.ok _, s1) => (.success, s1)
    | (.error e, s1) => (.failure e, s1)
  | _ => (.failure .nosupport, s)

/-- Events of the virtualized-ADC machine: process lifecycle, syscalls and
the hardware completion.  A completion can only fire while the hardware
has an operation in flight. -/
inductive AdcVEv where
  | spawn (pid : Nat)
  | destroy (pid : Nat)
  | command (pid num channel : Nat) (acc : List (Option ErrorCode))
  | sampleReady (sample : Nat) (acc : List (Option ErrorCode))
  deriving DecidableEq, Repr

/-- One event step of the virtualized-ADC machine. -/
def advStep (s : AdcVState) : AdcVEv → AdcVState
  | .spawn pid =>
    if (alookup pid s.apps).isSome then s
    else { s with apps := s.apps ++ [(pid, {})] }
  | .destroy pid => { s with apps := s.apps.filter fun x => x.1 ≠ pid }
  | .command pid num channel acc => (advCommand s num channel pid acc).2
  | .sampleReady sample acc =>
    if s.hwBusy then advSampleReady { s with hwBusy := false } sample acc else s

/-- Run a sequence of events from the initial state with `n` channels. -/
def advRun (n : Nat) (evs : List AdcVEv) : AdcVState :=
  evs.foldl advStep (advInit n)

/-! ## Dedicated ADC syscall driver (`adc.rs`, `AdcDedicated`) -/

/-- `AdcMode` from `adc.rs`. -/
inductive AdcMode where
  | noMode
  | singleSample
  | continuousSample
  | singleBuffer
  | continuousBuffer
  deriving DecidableEq, Repr

/-- The `as usize` value of an `AdcMode` (`NoMode = -1` casts to the
maximal usize; it never reaches an upcall). -/
def AdcMode.toNat : AdcMode → Nat
  | .noMode => 2 ^ 64 - 1
  | .singleSample => 0
  | .continuousSample => 1
  | .singleBuffer => 2
  | .continuousBuffer => 3

/-- Per-process grant record of `AdcDedicated` (`App` in `adc.rs`),
together with the two allowed read-write buffers of that process and
their userspace addresses, flattened in here for the model. -/
structure DedApp where
  app_buf_offset : Nat := 0
  samples_remaining : Nat := 0
  samples_outstanding : Nat := 0
  next_samples_outstanding : Nat := 0
  using_app_buf0 : Bool := true
  buf0 : List Nat := []
  buf1 : List Nat := []
  ptr0 : Nat := 0
  ptr1 : Nat := 0
  deriving DecidableEq, Repr

/-- The kind of operation running on the dedicated ADC hardware. -/
inductive DedHwOp where
  | single
  | continuous
  | highspeed
  deriving DecidableEq, Repr

/-- Dedicated ADC hardware state: the in-flight operation kind, the DMA
buffers it holds (with their requested sample counts, oldest first) and
the instrumentation flag recording an operation-start call arriving
while an operation is already in flight. -/
structure DedHw where
  op : Option DedHwOp := none
  bufs : List (List Nat × Nat) := []
  chanReq : Nat := 0
  freqReq : Nat := 0
  violation : Bool := false
  deriving DecidableEq, Repr

/-- `AdcDedicated` state. -/
structure DedState where
  active : Bool := false
  mode : AdcMode := .noMode
  channel : Nat := 0
  numChannels : Nat := 0
  resolutionBits : Nat := 12
  voltageRefMv : Option Nat := none
  processid : Option Nat := none
  apps : List (Nat × DedApp) := []
  adcBuf1 : Option (List Nat) := none
  adcBuf2 : Option (List Nat) := none
  adcBuf3 : Option (List Nat) := none
  hw : DedHw := {}
  upcalls : List Upcall := []
  deriving DecidableEq, Repr

/-- Initial capsule state with `nch` channels and the three `BUF_LEN = 128`
sample buffers. -/
def dedInit (nch : Nat) : DedState :=
  { numChannels := nch
    adcBuf1 := some (List.replicate 128 0)
    adcBuf2 := some (List.replicate 128 0)
    adcBuf3 := some (List.replicate 128 0) }

/-- `AdcDedicated::replace_buffer`: always insert the returned buffer in
the last slot, shifting the previous occupant towards the front. -/
def dedReplaceBuffer (s : DedState) (buf : List Nat) : DedState :=
  match s.adcBuf3 with
  | none => { s with adcBuf3 := some buf }
  | some temp =>
    match s.adcBuf2 with
    | none => { s with adcBuf3 := some buf, adcBuf2 := some temp }
    | some _ => { s with adcBuf3 := some buf, adcBuf1 := some temp }

/-- The buffer selection of `AdcDedicated::take_and_map_buffer`: pull
from the first occupied slot. -/
def dedTakeBuffer (s : DedState) : Option (List Nat) × DedState :=
  match s.adcBuf1 with
  | some b => (some b, { s with adcBuf1 := none })
  | none =>
    match s.adcBuf2 with
    | some b => (some b, { s with adcBuf2 := none })
    | none =>
      match s.adcBuf3 with
      | some b => (some b, { s with adcBuf3 := none })
      | none => (none, s)

/-- `self.adc.sample(chan)`: instrumented single-sample start. -/
def dedHwSample (s : DedState) (chan : Nat) (accept : Bool) :
    Except ErrorCode Unit × DedState :=
  let s1 := { s with hw := { s.hw with violation := s.hw.violation || s.hw.op.isSome } }
  if accept then
    (Except.ok (), { s1 with hw := { s1.hw with op := some .single, chanReq := chan } })
  else (Except.error .fail, s1)

/-- `self.adc.sample_continuous(chan, freq)`: instrumented start. -/
def dedHwSampleContinuous (s : DedState) (chan freq : Nat) (accept : Bool) :
    Except ErrorCode Unit × DedState :=
  let s1 := { s with hw := { s.hw with violation := s.hw.violation || s.hw.op.isSome } }
  if accept then
    (Except.ok (),
     { s1 with hw := { s1.hw with op := some .continuous, chanReq := chan, freqReq := freq } })
  else (Except.error .fail, s1)

/-- `self.adc.sample_highspeed(chan, freq, buf1, len1, buf2, len2)`:
instrumented start; a synchronous rejection hands both buffers back. -/
def dedHwSampleHighspeed (s : DedState) (chan freq : Nat) (buf1 : List Nat) (len1 : Nat)
    (buf2 : List Nat) (len2 : Nat) (accept : Bool) :
    Except (ErrorCode × List Nat × List Nat) Unit × DedState :=
  let s1 := { s with hw := { s.hw with violation := s.hw.violation || s.hw.op.isSome } }
  if accept then
    (Except.ok (),
     { s1 with hw := { s1.hw with
         op := some .highspeed
         bufs := [(buf1, len1), (buf2, len2)]
         chanReq := chan
         freqReq := freq } })
  else (Except.error (.fail, buf1, buf2), s1)

/-- `self.adc.provide_buffer(buf, len)` as used at the call sites: the
result is discarded, and a rejected buffer is re-stored via
`replace_buffer`. -/
def dedHwProvide (s : DedState) (buf : List Nat) (len : Nat) (accept : Bool) : DedState :=
  if accept then { s with hw := { s.hw with bufs := s.hw.bufs ++ [(buf, len)] } }
  else dedReplaceBuffer s buf

/-- `self.adc.retrieve_buffers()`: the hardware hands back the buffers it
holds (at most two). -/
def dedHwRetrieve (s : DedState) : Option (List Nat) × Option (List Nat) × DedState :=
  (s.hw.bufs.head?.map Prod.fst, (s.hw.bufs.drop 1).head?.map Prod.fst,
   { s with hw := { s.hw with bufs := [] } })

/-- `AdcDedicated::sample`. -/
def dedSample (s : DedState) (channel : Nat) (accept : Bool) :
    Except ErrorCode Unit × DedState :=
  if s.active then (Except.error .busy, s)
  else if s.numChannels ≤ channel then (Except.error .inval, s)
  else
    let s1 := { s with active := true, mode := .singleSample, channel := channel }
    match dedHwSample s1 channel accept with
    | (.ok _, s2) => (Except.ok (), s2)
    | (.error e, s2) => (Except.error e, { s2 with active := false, mode := .noMode })

/-- `AdcDedicated::sample_continuous`. -/
def dedSampleContinuous (s : DedState) (channel freq : Nat) (accept : Bool) :
    Except ErrorCode Unit × DedState :=
  if s.active then (Except.error .busy, s)
  else if s.numChannels ≤ channel then (Except.error .inval, s)
  else
    let s1 := { s with active := true, mode := .continuousSample, channel := channel }
    match dedHwSampleContinuous s1 channel freq accept with
    | (.ok _, s2) => (Except.ok (), s2)
    | (.error e, s2) => (Except.error e, { s2 with active := false, mode := .noMode })

/-- `AdcDedicated::sample_buffer`. -/
def dedSampleBuffer (s : DedState) (channel freq : Nat) (accept : Bool) :
    Except ErrorCode Unit × DedState :=
  if s.active then (Except.error .busy, s)
  else if s.numChannels ≤ channel then (Except.error .inval, s)
  else
    -- cannot sample a buffer without a buffer to sample into
    match s.processid with
    | none => (Except.error .nomem, s)
    | some id =>
      match alookup id s.apps with
      | none => (Except.error .nomem, { s with processid := none })
      | some app0 =>
        let app_buf_length := app0.buf0.length
        if app_buf_length = 0 then (Except.error .nomem, s)
        else
          -- save state for callback
          let s1 := { s with active := true, mode := .singleBuffer }
          let s2 := { s1 with
            apps := aupdate id (fun a => { a with app_buf_offset := 0 }) s1.apps
            channel := channel }
          let (ret, s3) :=
            match s2.adcBuf1 with
            | none => (Except.error ErrorCode.busy, s2)
            | some buf1 =>
              let sA := { s2 with adcBuf1 := none }
              match sA.adcBuf2 with
              | none => (Except.error ErrorCode.busy, sA)
              | some buf2 =>
                let sB := { sA with adcBuf2 := none }
                -- determine request length
                let request_len := app_buf_length / 2
                let (len1, len2) :=
                  if request_len ≤ buf1.length then (app_buf_length / 2, 0)
                  else if request_len ≤ buf1.length + buf2.length then
                    (buf1.length, request_len - buf1.length)
                  else (buf1.length, buf2.length)
                -- begin sampling
                let sC := { sB with apps := aupdate id (fun a =>
                    { a with using_app_buf0 := true,
                             samples_remaining := request_len - len1 - len2,
                             samples_outstanding := len1 + len2 }) sB.apps }
                match dedHwSampleHighspeed sC channel freq buf1 len1 buf2 len2 accept with
                | (.ok _, sD) => (Except.ok (), sD)
                | (.error (e, b1, b2), sD) =>
                  (Except.error e, dedReplaceBuffer (dedReplaceBuffer sD b1) b2)
          match ret with
          | .ok _ => (Except.ok (), s3)
          | .error e =>
            -- failure, clear state
            (Except.error e,
             { s3 with
                 active := false
                 mode := .noMode
                 apps := aupdate id (fun a =>
                   { a with samples_remaining := 0, samples_outstanding := 0 }) s3.apps })

/-- `AdcDedicated::sample_buffer_continuous`. -/
def dedSampleBufferContinuous (s : DedState) (channel freq : Nat) (accept : Bool) :
    Except ErrorCode Unit × DedState :=
  if s.active then (Except.error .busy, s)
  else if s.numChannels ≤ channel then (Except.error .inval, s)
  else
    match s.processid with
    | none => (Except.error .nomem, s)
    | some id =>
      match alookup id s.apps with
      | none => (Except.error .nomem, { s with processid := none })
      | some app0 =>
        let app_buf_length := app0.buf0.length
        let next_app_buf_length := app0.buf1.length
        if app_buf_length = 0 || next_app_buf_length = 0 then (Except.error .nomem, s)
        else
          let s1 := { s with active := true, mode := .continuousBuffer }
          let s2 := { s1 with
            apps := aupdate id (fun a => { a with app_buf_offset := 0 }) s1.apps
            channel := channel }
          let (ret, s3) :=
            match s2.adcBuf1 with
            | none => (Except.error ErrorCode.busy, s2)
            | some buf1 =>
              let sA := { s2 with adcBuf1 := none }
              match sA.adcBuf2 with
              | none => (Except.error ErrorCode.busy, sA)
              | some buf2 =>
                let sB := { sA with adcBuf2 := none }
                -- determine request lengths
                let samples_needed := app_buf_length / 2
                let next_samples_needed := next_app_buf_length / 2
                let (len1, len2, remaining, outstanding) :=
                  if samples_needed ≤ buf1.length then
                    (samples_needed, min next_samples_needed buf2.length,
                     0, samples_needed)
                  else if samples_needed ≤ buf1.length + buf2.length then
                    (buf1.length, samples_needed - buf1.length,
                     0, samples_needed)
                  else
                    (buf1.length, buf2.length,
                     samples_needed - buf1.length - buf2.length,
                     buf1.length + buf2.length)
                let sC := { sB with apps := aupdate id (fun a =>
                    { a with samples_remaining := remaining,
                             samples_outstanding := outstanding,
                             using_app_buf0 := true }) sB.apps }
                match dedHwSampleHighspeed sC channel freq buf1 len1 buf2 len2 accept with
                | (.ok _, sD) => (Except.ok (), sD)
                | (.error (e, b1, b2), sD) =>
                  (Except.error e, dedReplaceBuffer (dedReplaceBuffer sD b1) b2)
          match ret with
          | .ok _ => (Except.ok (), s3)
          | .error e =>
            (Except.error e,
             { s3 with
                 active := false
                 mode := .noMode
                 apps := aupdate id (fun a =>
                   { a with samples_remaining := 0, samples_outstanding := 0 }) s3.apps })

/-- `AdcDedicated::stop_sampling` (the hardware stop and buffer retrieval
are modelled as always succeeding). -/
def dedStopSampling (s : DedState) : Except ErrorCode Unit × DedState :=
  if !s.active || s.mode = .noMode then (Except.ok (), s)
  else
    match s.processid with
    | none => (Except.error .fail, s)
    | some id =>
      match alookup id s.apps with
      | none => (Except.error .fail, { s with processid := none })
      | some _ =>
        let s1 := { s with
          active := false
          mode := .noMode
          apps := aupdate id (fun a => { a with app_buf_offset := 0 }) s.apps }
        let s2 := { s1 with hw := { s1.hw with op := none } }
        let (b1, b2, s3) := dedHwRetrieve s2
        let s4 := match b1 with
          | some b => dedReplaceBuffer s3 b
          | none => s3
        let s5 := match b2 with
          | some b => dedReplaceBuffer s4 b
          | none => s4
        (Except.ok (), s5)

/-- Convert a capsule result into a `CommandReturn` the way
`AdcDedicated::command` does. -/
def cmdOf : Except ErrorCode Unit × DedState → CommandReturn × DedState
  | (.ok _, s) => (.success, s)
  | (.error e, s) => (.failure e, s)

/-- `SyscallDriver::command` for `AdcDedicated`, including the
single-owner guard that runs before the opcode dispatch. -/
def dedCommand (s : DedState) (num channel freq pid : Nat) (accept : Bool) :
    CommandReturn × DedState :=
  let ownerOk :=
    match s.processid with
    | none => true
    | some owning =>
      if s.active then owning = pid
      else
        match alookup owning s.apps with
        | some _ => owning = pid
        | none => true
  if ownerOk then
    let s1 := { s with processid := some pid }
    match num with
    | 0 => (.successU32 s1.numChannels, s1)
    | 1 => cmdOf (dedSample s1 channel accept)
    | 2 => cmdOf (dedSampleContinuous s1 channel freq accept)
    | 3 => cmdOf (dedSampleBuffer s1 channel freq accept)
    | 4 => cmdOf (dedSampleBufferContinuous s1 channel freq accept)
    | 5 => cmdOf (dedStopSampling s1)
    | 101 => (.successU32 s1.resolutionBits, s1)
    | 102 =>
      match s1.voltageRefMv with
      | some v => (.successU32 v, s1)
      | none => (.failure .nosupport, s1)
    | _ => (.failure .nosupport, s1)
  else (.failure .nomem, s)

/-- The no-callback cleanup of `sample_ready` ("operation probably
canceled"): clear state and stop the hardware. -/
def dedNoCallback (s : DedState) : DedState :=
  { s with active := false, mode := .noMode, hw := { s.hw with op := none } }

/-- `hil::adc::Client::sample_ready` for `AdcDedicated`. -/
def dedSampleReady (s : DedState) (sample : Nat) : DedState :=
  if s.active && s.mode = .singleSample then
    let s1 := { s with active := false, mode := .noMode }
    match s1.processid with
    | some id =>
      match alookup id s1.apps with
      | some _ =>
        { s1 with upcalls := s1.upcalls ++
            [⟨id, 0, AdcMode.singleSample.toNat, s1.channel, sample⟩] }
      | none => dedNoCallback { s1 with processid := none }
    | none => dedNoCallback s1
  else if s.active && s.mode = .continuousSample then
    match s.processid with
    | some id =>
      match alookup id s.apps with
      | some _ =>
        { s with upcalls := s.upcalls ++
            [⟨id, 0, AdcMode.continuousSample.toNat, s.channel, sample⟩] }
      | none => dedNoCallback { s with processid := none }
    | none => dedNoCallback s
  else dedNoCallback s

/-- `app_buf.chunks(2)`. -/
def chunks2 : List Nat → List (List Nat)
  | [] => []
  | [a] => [[a]]
  | a :: b :: rest => [a, b] :: chunks2 rest

/-- Write one sample into a two-byte chunk: for each byte,
`byte.set(val & 0xFF); val >>= 8`. -/
def writeChunk : List Nat → Nat → List Nat
  | [], _ => []
  | _ :: rest, val => val % 256 :: writeChunk rest (val / 256)

/-- The copy loop of `samples_ready`:
`app_buf.chunks(2).skip(skip_amt).zip(adc_buf.iter()).take(length)`. -/
def copyChunks : List (List Nat) → Nat → List Nat → Nat → List (List Nat)
  | chunks, skip + 1, samples, len =>
    match chunks with
    | [] => []
    | c :: cs => c :: copyChunks cs skip samples len
  | chunks, 0, samples, len =>
    match len, chunks, samples with
    | 0, cs, _ => cs
    | _ + 1, [], _ => []
    | _ + 1, c :: cs, [] => c :: cs
    | l + 1, c :: cs, v :: vs => writeChunk c v :: copyChunks cs 0 vs l

/-- Copy `len` samples from `adcBuf` into `appBuf` starting at chunk
`skip`, leaving all other bytes unchanged. -/
def copySamples (appBuf : List Nat) (skip : Nat) (adcBuf : List Nat) (len : Nat) : List Nat :=
  (copyChunks (chunks2 appBuf) skip adcBuf len).flatten

/-- The `take_and_map_buffer` closure requesting more samples for the
current app buffer (used both in the `samples_remaining > 0` branch and
in the continuous switch when the next buffer still needs samples). -/
def dedProvideMoreA (s : DedState) (app : DedApp) (accept : Bool) : DedState × DedApp :=
  match dedTakeBuffer s with
  | (none, s1) => (s1, app)
  | (some adc_buf, s1) =>
    let request_len := min app.samples_remaining adc_buf.length
    let app1 := { app with
      samples_remaining := app.samples_remaining - request_len,
      samples_outstanding := app.samples_outstanding + request_len }
    (dedHwProvide s1 adc_buf request_len accept, app1)

/-- The `take_and_map_buffer` closure placing the first request for the
next app buffer (continuous mode, current buffer still outstanding). -/
def dedProvideNextA (s : DedState) (app : DedApp) (nextLen : Nat) (accept : Bool) :
    DedState × DedApp :=
  match dedTakeBuffer s with
  | (none, s1) => (s1, app)
  | (some adc_buf, s1) =>
    let samples_needed := nextLen / 2
    let request_len := min samples_needed adc_buf.length
    let app1 := { app with next_samples_outstanding := request_len }
    (dedHwProvide s1 adc_buf request_len accept, app1)

/-- The `take_and_map_buffer` closure placing a request for the
next-next app buffer (continuous mode, next buffer already complete). -/
def dedProvideNextNextA (s : DedState) (app : DedApp) (curLen : Nat) (accept : Bool) :
    DedState × DedApp :=
  match dedTakeBuffer s with
  | (none, s1) => (s1, app)
  | (some adc_buf, s1) =>
    let samples_needed := curLen / 2
    let request_len := min samples_needed adc_buf.length
    let app1 := { app with next_samples_outstanding := request_len }
    (dedHwProvide s1 adc_buf request_len accept, app1)

/-- The "unexpected state" cleanup of `samples_ready`: clear state, stop
sampling, and retrieve the buffers still held by the hardware. -/
def dedUnexpected (s : DedState) : DedState :=
  let s1 := { s with active := false, mode := .noMode }
  let s2 :=
    match s1.processid with
    | none => s1
    | some id =>
      match alookup id s1.apps with
      | some _ => { s1 with apps := aupdate id (fun a => { a with app_buf_offset := 0 }) s1.apps }
      | none => { s1 with processid := none }
  let s3 := { s2 with hw := { s2.hw with op := none } }
  let (b1, b2, s4) := dedHwRetrieve s3
  let s5 := match b1 with
    | some b => dedReplaceBuffer s4 b
    | none => s4
  match b2 with
  | some b => dedReplaceBuffer s5 b
  | none => s5

/-- The request-placement phase of `samples_ready` (everything between
the `samples_outstanding` update and the copy loop): decides whether the
completion upcall is due and, in continuous mode, places the next
hardware request. -/
def dedRequestPhase (s : DedState) (app1 : DedApp) (curLen nextLen : Nat)
    (acc : List Bool) : Bool × DedState × DedApp :=
  if app1.samples_remaining = 0 then
    if app1.samples_outstanding = 0 then
      if s.mode = .continuousBuffer then
        -- switch to the next app buffer, accounting for the request
        -- already placed for it
        let samples_needed := nextLen / 2
        let appSw := { app1 with
          samples_remaining := samples_needed - app1.next_samples_outstanding,
          samples_outstanding := app1.next_samples_outstanding,
          using_app_buf0 := !app1.using_app_buf0 }
        if appSw.samples_remaining = 0 then
          let (s', a') := dedProvideNextNextA s appSw curLen (acc.headD false)
          (true, s', a')
        else
          let (s', a') := dedProvideMoreA s appSw (acc.headD false)
          (true, s', a')
      else (true, s, app1)
    else
      if s.mode = .continuousBuffer then
        let (s', a') := dedProvideNextA s app1 nextLen (acc.headD false)
        (false, s', a')
      else (false, s, app1)
  else
    let (s', a') := dedProvideMoreA s app1 (acc.headD false)
    (false, s', a')

/-- Body of `samples_ready` inside a successful grant enter for the
owner `id` with record `app`. -/
def dedSamplesBody (s : DedState) (id : Nat) (app : DedApp) (length : Nat)
    (acc : List Bool) : DedState :=
  let use0 := app.using_app_buf0
  let curLen := if use0 then app.buf0.length else app.buf1.length
  let nextLen := if use0 then app.buf1.length else app.buf0.length
  -- update count of outstanding sample requests
  let app1 := { app with samples_outstanding := app.samples_outstanding - length }
  let (perform_callback, s1, app2) := dedRequestPhase s app1 curLen nextLen acc
  -- copy bytes to the app buffer through the slot-3 handle
  let skip_amt := app2.app_buf_offset / 2
  let app3 :=
    match s1.adcBuf3 with
    | none => app2
    | some adc_buf =>
      if use0 then { app2 with buf0 := copySamples app2.buf0 skip_amt adc_buf length }
      else { app2 with buf1 := copySamples app2.buf1 skip_amt adc_buf length }
  -- update our byte offset based on how many samples we copied
  let app4 := { app3 with app_buf_offset := app3.app_buf_offset + length * 2 }
  let bufPtr := if use0 then app4.ptr0 else app4.ptr1
  let bufLen := if use0 then app4.buf0.length else app4.buf1.length
  if perform_callback then
    -- (buf_len / 2) << 8 | (channel & 0xFF); the two fields do not overlap
    let lenChan := bufLen / 2 * 256 + s1.channel % 256
    let s2 := { s1 with
      apps := aupdate id (fun _ => app4) s1.apps
      upcalls := s1.upcalls ++ [Upcall.mk id 0 s1.mode.toNat lenChan bufPtr] }
    if s2.mode = .singleBuffer then
      let s3 := { s2 with
        active := false
        mode := .noMode
        apps := aupdate id (fun a => { a with app_buf_offset := 0 }) s2.apps }
      let s4 := { s3 with hw := { s3.hw with op := none } }
      let (b1, b2, s5) := dedHwRetrieve s4
      let s6 := match b1 with
        | some b => dedReplaceBuffer s5 b
        | none => s5
      match b2 with
      | some b => dedReplaceBuffer s6 b
      | none => s6
    else
      { s2 with apps := aupdate id (fun a => { a with app_buf_offset := 0 }) s2.apps }
  else
    { s1 with apps := aupdate id (fun _ => app4) s1.apps }

/-- `hil::adc::HighSpeedClient::samples_ready` for `AdcDedicated`. -/
def dedSamplesReady (s : DedState) (buf : List Nat) (length : Nat)
    (acc : List Bool) : DedState :=
  -- make sure in all cases we regain ownership of the buffer
  let s0 := dedReplaceBuffer s buf
  if s0.active && (s0.mode = .singleBuffer || s0.mode = .continuousBuffer) then
    match s0.processid with
    | none => s0
    | some id =>
      match alookup id s0.apps with
      | none => dedUnexpected { s0 with processid := none }
      | some app => dedSamplesBody s0 id app length acc
  else dedUnexpected s0

/-- Events of the dedicated-ADC machine.  Completion events fire only
for the operation kind the hardware is actually running; a high-speed
completion returns the oldest held buffer filled with the delivered
samples (the valid count never exceeds the requested length). -/
inductive DedEv where
  | spawn (pid : Nat) (buf0 buf1 : List Nat) (ptr0 ptr1 : Nat)
  | destroy (pid : Nat)
  | command (pid num channel freq : Nat) (accept : Bool)
  | sampleReady (sample : Nat)
  | samplesReady (samples : List Nat) (acc : List Bool)
  deriving DecidableEq, Repr

/-- One event step of the dedicated-ADC machine. -/
def dedStep (s : DedState) : DedEv → DedState
  | .spawn pid b0 b1 p0 p1 =>
    if (alookup pid s.apps).isSome then s
    else { s with apps := s.apps ++ [(pid, { buf0 := b0, buf1 := b1, ptr0 := p0, ptr1 := p1 })] }
  | .destroy pid => { s with apps := s.apps.filter fun x => x.1 ≠ pid }
  | .command pid num channel freq accept => (dedCommand s num channel freq pid accept).2
  | .sampleReady sample =>
    match s.hw.op with
    | some .single => dedSampleReady { s with hw := { s.hw with op := none } } sample
    | some .continuous => dedSampleReady s sample
    | _ => s
  | .samplesReady samples acc =>
    match s.hw.op with
    | some .highspeed =>
      match s.hw.bufs with
      | [] => s
      | (b, l) :: rest =>
        let len := min samples.length l
        let filled := samples.take len ++ b.drop len
        dedSamplesReady { s with hw := { s.hw with bufs := rest } } filled len acc
    | _ => s

/-- Run a sequence of events from the initial state with `nch` channels. -/
def dedRun (nch : Nat) (evs : List DedEv) : DedState :=
  evs.foldl dedStep (dedInit nch)

/-! ## Derived notions used by the statements -/

/-- Little-endian two-byte encoding of a list of samples: the layout the
`samples_ready` copy loop produces in the app buffer. -/
def samplesLE : List Nat → List Nat
  | [] => []
  | v :: vs => v % 256 :: v / 256 % 256 :: samplesLE vs

/-- Invariant of the virtualized-ADC arbiter: the instrumentation flag is
clear, the hardware is busy exactly when a current owner is recorded, and
an idle arbiter has no queued request left behind. -/
def advInv (s : AdcVState) : Prop :=
  s.violation = false ∧
  s.hwBusy = s.current_process.isSome ∧
  (s.current_process = none →
    ∀ p a, alookup p s.apps = some a → a.pending_command = false)

/-- Invariant of the dedicated-ADC capsule: the instrumentation flag is
clear and any in-flight hardware operation is matched by the capsule's
`active`/`mode` bookkeeping. -/
def dedInv (s : DedState) : Prop :=
  s.hw.violation = false ∧
  (match s.hw.op with
   | none => True
   | some .single => s.active = true ∧ s.mode = .singleSample
   | some .continuous => s.active = true ∧ s.mode = .continuousSample
   | some .highspeed => s.active = true ∧ (s.mode = .singleBuffer ∨ s.mode = .continuousBuffer))

/-- A nonvolatile-storage state in which process 7 owns the in-flight
read but has been destroyed (no grant record), with the internal buffer
out with the hardware. -/
def exampleNvDead : NvState where
  apps := []
  buffer := none
  current_user := some (.app 7)
  userspace_start_address := 1000
  userspace_length := 100
  kernel_start_address := 0
  kernel_length := 100
  kernel_pending_command := false
  kernel_command := .kernelRead
  kernel_buffer := none
  kernel_readwrite_length := 0
  kernel_readwrite_address := 0
  hw := { busy := true, heldBuf := some [1, 2, 3] }
  upcalls := []
  kernelCbs := []

/-- An idle nonvolatile-storage state with one live process (id 7) whose
pending slot is occupied, but with the internal buffer missing, so that
the dispatch attempt for process 7 fails synchronously. -/
def exampleNvStuck : NvState where
  apps := [(7, { pending_command := true, command := .userspaceRead,
                 offset := 1, length := 2, readBuf := [0, 0] })]
  buffer := none
  current_user := none
  userspace_start_address := 1000
  userspace_length := 100
  kernel_start_address := 0
  kernel_length := 100
  kernel_pending_command := false
  kernel_command := .kernelRead
  kernel_buffer := none
  kernel_readwrite_length := 0
  kernel_readwrite_address := 0
  hw := {}
  upcalls := []
  kernelCbs := []

/-- The fields of a dedicated-ADC state that `dedInv` depends on. -/
def dedCore (s : DedState) : Bool × AdcMode × Option DedHwOp × Bool :=
  (s.active, s.mode, s.hw.op, s.hw.violation)

/-! ## Association-list lemmas -/

theorem alookup_aupdate_self (pid : Nat) (f : α → α) (l : List (Nat × α)) :
    alookup pid (aupdate pid f l) = (alookup pid l).map f := by
  induction l with
  | nil => rfl
  | cons x rest ih =>
    obtain ⟨q, a⟩ := x
    by_cases h : q = pid <;> simp [alookup, aupdate, h, ih]

theorem alookup_aupdate_ne (p pid : Nat) (h : p ≠ pid) (f : α → α) (l : List (Nat × α)) :
    alookup p (aupdate pid f l) = alookup p l := by
  induction l with
  | nil => rfl
  | cons x rest ih =>
    obtain ⟨q, a⟩ := x
    by_cases hq : q = pid
    · subst hq
      have hne : (q = p) = False := eq_false fun hh => h hh.symm
      simp [aupdate, alookup, hne]
    · simp only [aupdate, if_neg hq]
      by_cases hp : q = p
      · simp [alookup, hp]
      · simp [alookup, hp, ih]

theorem alookup_mem_keys {l : List (Nat × α)} {p : Nat} {a : α}
    (h : alookup p l = some a) : p ∈ l.map Prod.fst := by
  induction l with
  | nil => simp [alookup] at h
  | cons x rest ih =>
    obtain ⟨q, b⟩ := x
    by_cases hq : q = p
    · simp [hq]
    · simp [alookup, hq] at h
      simp [ih h]

theorem alookup_append_single (p q : Nat) (b : α) (l : List (Nat × α)) :
    alookup p (l ++ [(q, b)]) =
      (match alookup p l with
       | some a => some a
       | none => if q = p then some b else none) := by
  induction l with
  | nil => rfl
  | cons x rest ih =>
    obtain ⟨r, c⟩ := x
    by_cases hr : r = p <;> simp [alookup, hr, ih]

theorem alookup_filter_ne (p pid : Nat) (l : List (Nat × α)) :
    alookup p (l.filter fun x => x.1 ≠ pid) =
      if p = pid then none else alookup p l := by
  induction l with
  | nil => simp [alookup]
  | cons x rest ih =>
    obtain ⟨q, a⟩ := x
    simp only [List.filter_cons]
    by_cases hq : q = pid <;> by_cases hp : p = pid <;> by_cases hqp : q = p <;>
      simp_all [alookup]

/-! ## PWM mux lemmas -/

theorem doNextOpF_violation (fuel : Nat) :
    ∀ m : MuxPwm, (doNextOpF fuel m).violation = m.violation := by
  induction fuel with
  | zero => intro m; rfl
  | succ n ih =>
    intro m
    unfold doNextOpF
    cases hinf : m.inflight with
    | none =>
      cases hfind : pwmFindPending m.devices with
      | none => rfl
      | some node =>
        rcases h : pwmTakeOp node.id m.devices with ⟨op?, devs⟩
        simp only [h]
        cases op? with
        | none => simp [ih]
        | some op =>
          cases op with
          | simple f d => simp [pwmHwStart, hinf]
          | stop => simp [ih]
    | some c =>
      rcases h : pwmTakeOp c m.devices with ⟨op?, devs⟩
      simp only [h]
      cases op? with
      | none => rfl
      | some op =>
        cases op with
        | simple f d => simp [ih, pwmHwStart, hinf]
        | stop => simp [ih, pwmHwStop]

theorem pwmStep_violation (m : MuxPwm) (e : PwmEv) :
    (pwmStep m e).violation = m.violation := by
  cases e <;>
    simp [pwmStep, pwmAdd, pwmStart, pwmStop, doNextOp, doNextOpF_violation]

theorem pwmFoldl_violation (evs : List PwmEv) :
    ∀ m, (evs.foldl pwmStep m).violation = m.violation := by
  induction evs with
  | nil => intro m; rfl
  | cons e rest ih => intro m; simp [List.foldl, ih, pwmStep_violation]

/-! ## Virtualized-ADC lemmas -/

theorem advCallDriver_spec (s : AdcVState) (cmd : AdcOperation) (ch : Nat)
    (acc : List (Option ErrorCode)) :
    (advCallDriver s cmd ch acc).2.1.apps = s.apps ∧
    (advCallDriver s cmd ch acc).2.1.current_process = s.current_process ∧
    (advCallDriver s cmd ch acc).2.1.upcalls = s.upcalls ∧
    (advCallDriver s cmd ch acc).2.1.numDrivers = s.numDrivers ∧
    (advCallDriver s cmd ch acc).2.1.violation =
      (s.violation || (decide (ch < s.numDrivers) && s.hwBusy)) ∧
    (advCallDriver s cmd ch acc).2.1.hwBusy =
      (match (advCallDriver s cmd ch acc).1 with
       | .ok _ => true
       | .error _ => s.hwBusy) := by
  cases cmd
  unfold advCallDriver
  by_cases h : ch < s.numDrivers
  · cases hacc : acc.headD none <;> simp [h, hacc]
  · simp [h]

theorem advRunNextAux_noop (pids : List Nat) (s : AdcVState) (cmd0 : AdcOperation)
    (acc : List (Option ErrorCode))
    (hfree : ∀ p a, alookup p s.apps = some a → a.pending_command = false) :
    advRunNextAux s cmd0 acc pids = s := by
  induction pids generalizing cmd0 acc with
  | nil => rfl
  | cons pid rest ih =>
    unfold advRunNextAux
    cases h : alookup pid s.apps with
    | none => simp [h, ih]
    | some app => simp [h, hfree pid app h, ih]

theorem advRunNextAux_upcalls (pids : List Nat) :
    ∀ (s : AdcVState) (cmd0 : AdcOperation) (acc : List (Option ErrorCode)),
      (advRunNextAux s cmd0 acc pids).upcalls = s.upcalls := by
  induction pids with
  | nil => intro s cmd0 acc; rfl
  | cons pid rest ih =>
    intro s cmd0 acc
    unfold advRunNextAux
    cases h : alookup pid s.apps with
    | none => simp [h, ih]
    | some app =>
      cases hpend : app.pending_command with
      | false => simp [h, hpend, ih]
      | true =>
        simp only [h, hpend, if_true]
        rcases hcall : advCallDriver
            { s with
              apps := aupdate pid (fun a =>
                { a with pending_command := false, command := none }) s.apps
              current_process := some pid }
            (app.command.getD cmd0) app.channel acc with ⟨r, s2, acc'⟩
        have hspec := advCallDriver_spec
            { s with
              apps := aupdate pid (fun a =>
                { a with pending_command := false, command := none }) s.apps
              current_process := some pid }
            (app.command.getD cmd0) app.channel acc
        rw [hcall] at hspec
        dsimp only at hspec
        cases r with
        | ok _ => simpa using hspec.2.2.1
        | error e =>
          have hup : s2.upcalls = s.upcalls := by simpa using hspec.2.2.1
          simp [ih, hup]

theorem advRunNextAux_inv (pids : List Nat) :
    ∀ (s : AdcVState) (cmd0 : AdcOperation) (acc : List (Option ErrorCode)),
      s.hwBusy = false → s.current_process = none → s.violation = false →
      (∀ p a, p ∉ pids → alookup p s.apps = some a → a.pending_command = false) →
      advInv (advRunNextAux s cmd0 acc pids) := by
  induction pids with
  | nil =>
    intro s cmd0 acc hb hcur hv hout
    unfold advRunNextAux advInv
    refine ⟨hv, ?_, ?_⟩
    · rw [hb, hcur]; rfl
    · intro _ p a h
      exact hout p a (by simp) h
  | cons pid rest ih =>
    intro s cmd0 acc hb hcur hv hout
    unfold advRunNextAux
    cases h : alookup pid s.apps with
    | none =>
      simp only [h]
      apply ih s cmd0 acc hb hcur hv
      intro p a hp hl
      by_cases hpp : p = pid
      · subst hpp; rw [h] at hl; cases hl
      · refine hout p a ?_ hl
        intro hmem
        rcases List.mem_cons.mp hmem with h1 | h2
        · exact hpp h1
        · exact hp h2
    | some app =>
      cases hpend : app.pending_command with
      | false =>
        simp only [h, hpend, Bool.false_eq_true, if_false]
        apply ih s cmd0 acc hb hcur hv
        intro p a hp hl
        by_cases hpp : p = pid
        · subst hpp; rw [h] at hl; cases hl; exact hpend
        · refine hout p a ?_ hl
          intro hmem
          rcases List.mem_cons.mp hmem with h1 | h2
          · exact hpp h1
          · exact hp h2
      | true =>
        simp only [h, hpend, if_true]
        rcases hcall : advCallDriver
            { s with
              apps := aupdate pid (fun a =>
                { a with pending_command := false, command := none }) s.apps
              current_process := some pid }
            (app.command.getD cmd0) app.channel acc with ⟨r, s2, acc'⟩
        have hspec := advCallDriver_spec
            { s with
              apps := aupdate pid (fun a =>
                { a with pending_command := false, command := none }) s.apps
              current_process := some pid }
            (app.command.getD cmd0) app.channel acc
        rw [hcall] at hspec
        dsimp only at hspec
        obtain ⟨happs, hcurr, hup, hnd, hviol, hbusy⟩ := hspec
        cases r with
        | ok _ =>
          refine ⟨?_, ?_, ?_⟩
          · simpa [hb, hv] using hviol
          · rw [hbusy, hcurr]; rfl
          · intro hcc
            rw [hcurr] at hcc
            cases hcc
        | error e =>
          apply ih
          · simpa [hb] using hbusy
          · rfl
          · simpa [hb, hv] using hviol
          · intro p a hp hl
            rw [happs] at hl
            by_cases hpp : p = pid
            · subst hpp
              rw [alookup_aupdate_self, h] at hl
              cases hl
              rfl
            · rw [alookup_aupdate_ne p pid hpp] at hl
              refine hout p a ?_ hl
              intro hmem
              rcases List.mem_cons.mp hmem with h1 | h2
              · exact hpp h1
              · exact hp h2

theorem advRunNext_inv (s : AdcVState) (acc : List (Option ErrorCode))
    (hb : s.hwBusy = false) (hcur : s.current_process = none)
    (hv : s.violation = false) :
    advInv (advRunNext s acc) := by
  apply advRunNextAux_inv _ s _ acc hb hcur hv
  intro p a hp hl
  exact absurd (alookup_mem_keys hl) hp

theorem advEnqueue_inv (s : AdcVState) (cmd : AdcOperation) (ch pid : Nat)
    (acc : List (Option ErrorCode)) (h : advInv s) :
    advInv (advEnqueue s cmd ch pid acc).2 := by
  obtain ⟨hv, hbusy, hidle⟩ := h
  unfold advEnqueue
  by_cases hch : ch < s.numDrivers
  · simp only [hch, if_true]
    cases hcur : s.current_process with
    | some q =>
      simp only [hcur, Option.isNone_some, Bool.false_eq_true, if_false]
      cases hl : alookup pid s.apps with
      | none => exact ⟨hv, hbusy, hidle⟩
      | some app =>
        cases hpend : app.pending_command with
        | true => simp only [hpend, if_true]; exact ⟨hv, hbusy, hidle⟩
        | false =>
          simp only [hpend, Bool.false_eq_true, if_false]
          refine ⟨hv, ?_, ?_⟩
          · show s.hwBusy = (some q : Option Nat).isSome
            rw [hbusy, hcur]
          · intro hcc
            have hcc2 : (some q : Option Nat) = none := hcc
            cases hcc2
    | none =>
      have hb : s.hwBusy = false := by rw [hbusy, hcur]; rfl
      simp only [hcur, Option.isNone_none, if_true]
      rcases hcall : advCallDriver { s with current_process := some pid } cmd ch acc
        with ⟨r, s2, acc'⟩
      have hspec := advCallDriver_spec { s with current_process := some pid } cmd ch acc
      rw [hcall] at hspec
      dsimp only at hspec
      obtain ⟨happs, hcurr, hup, hnd, hviol, hbusy2⟩ := hspec
      cases r with
      | ok _ =>
        dsimp only
        have hfree : ∀ p a, alookup p s2.apps = some a → a.pending_command = false := by
          intro p a hla
          rw [happs] at hla
          exact hidle hcur p a hla
        rw [advRunNext, advRunNextAux_noop _ _ _ _ hfree]
        refine ⟨?_, ?_, ?_⟩
        · rw [hviol, hb]; simpa using hv
        · rw [hbusy2, hcurr]; rfl
        · intro hcc; rw [hcurr] at hcc; cases hcc
      | error e =>
        dsimp only
        apply advRunNext_inv
        · simpa [hb] using hbusy2
        · rfl
        · rw [hviol, hb]; simpa using hv
  · simp only [hch, Bool.false_eq_true, if_false]
    exact ⟨hv, hbusy, hidle⟩

theorem advStep_inv (s : AdcVState) (e : AdcVEv) (h : advInv s) :
    advInv (advStep s e) := by
  obtain ⟨hv, hbusy, hidle⟩ := h
  cases e with
  | spawn pid =>
    unfold advStep
    cases hl : alookup pid s.apps with
    | some app => simp only [hl, Option.isSome_some, if_true]; exact ⟨hv, hbusy, hidle⟩
    | none =>
      simp only [hl, Option.isSome_none, Bool.false_eq_true, if_false]
      refine ⟨hv, hbusy, ?_⟩
      intro hcc p a hla
      rw [show ({ s with apps := s.apps ++ [(pid, {})] } : AdcVState).current_process
        = s.current_process from rfl] at hcc
      rw [show ({ s with apps := s.apps ++ [(pid, {})] } : AdcVState).apps
        = s.apps ++ [(pid, {})] from rfl, alookup_append_single] at hla
      cases hx : alookup p s.apps with
      | some b => rw [hx] at hla; cases hla; exact hidle hcc p a hx
      | none =>
        rw [hx] at hla
        by_cases hpp : pid = p
        · simp only [hpp, if_pos rfl] at hla
          cases hla
          rfl
        · simp [hpp] at hla
  | destroy pid =>
    refine ⟨hv, hbusy, ?_⟩
    intro hcc p a hla
    have hcc2 : s.current_process = none := hcc
    have hla2 : alookup p (s.apps.filter fun x => x.1 ≠ pid) = some a := hla
    rw [alookup_filter_ne] at hla2
    by_cases hpp : p = pid
    · rw [if_pos hpp] at hla2; cases hla2
    · rw [if_neg hpp] at hla2
      exact hidle hcc2 p a hla2
  | command pid num ch acc =>
    unfold advStep advCommand
    match num with
    | 0 => exact ⟨hv, hbusy, hidle⟩
    | 1 =>
      have henq := advEnqueue_inv s .oneSample ch pid acc ⟨hv, hbusy, hidle⟩
      rcases hcall : advEnqueue s .oneSample ch pid acc with ⟨r, s1⟩
      rw [hcall] at henq
      dsimp only
      rw [hcall]
      cases r with
      | ok _ => exact henq
      | error e => exact henq
    | (n + 2) => exact ⟨hv, hbusy, hidle⟩
  | sampleReady sample acc =>
    unfold advStep
    cases hbz : s.hwBusy with
    | false => simp only [hbz, Bool.false_eq_true, if_false]; exact ⟨hv, hbusy, hidle⟩
    | true =>
      simp only [hbz, if_true]
      have hsome : s.current_process.isSome = true := by rw [← hbusy]; exact hbz
      obtain ⟨pid, hcur⟩ := Option.isSome_iff_exists.mp hsome
      unfold advSampleReady
      rw [show ({ s with hwBusy := false } : AdcVState).current_process
        = s.current_process from rfl, hcur]
      dsimp only
      cases hl : alookup pid ({ s with hwBusy := false } : AdcVState).apps with
      | none =>
        simp only [hl]
        apply advRunNext_inv <;> first | rfl | exact hv
      | some app =>
        simp only [hl]
        apply advRunNext_inv <;> first | rfl | exact hv

theorem advFoldl_inv (evs : List AdcVEv) :
    ∀ s, advInv s → advInv (evs.foldl advStep s) := by
  induction evs with
  | nil => intro s h; exact h
  | cons e rest ih => intro s h; exact ih (advStep s e) (advStep_inv s e h)

theorem advRun_inv (n : Nat) (evs : List AdcVEv) : advInv (advRun n evs) := by
  apply advFoldl_inv
  refine ⟨rfl, rfl, ?_⟩
  intro _ p a hla
  cases hla

/-! ## Dedicated-ADC lemmas -/

theorem dedInv_of_core {s' s : DedState} (h : dedCore s' = dedCore s)
    (hi : dedInv s) : dedInv s' := by
  unfold dedCore at h
  have h1 : s'.active = s.active := congrArg Prod.fst h
  have h2 : s'.mode = s.mode := congrArg (fun x => x.2.1) h
  have h3 : s'.hw.op = s.hw.op := congrArg (fun x => x.2.2.1) h
  have h4 : s'.hw.violation = s.hw.violation := congrArg (fun x => x.2.2.2) h
  unfold dedInv at hi ⊢
  rw [h1, h2, h3, h4]
  exact hi

theorem dedInv_op_none {s : DedState} (h : dedInv s) (hact : s.active = false) :
    s.hw.op = none := by
  obtain ⟨_, hm⟩ := h
  cases hop : s.hw.op with
  | none => rfl
  | some k =>
    rw [hop] at hm
    cases k <;> (rw [hm.1] at hact; cases hact)

theorem dedCore_replace (s : DedState) (b : List Nat) :
    dedCore (dedReplaceBuffer s b) = dedCore s := by
  unfold dedReplaceBuffer
  cases h3 : s.adcBuf3 with
  | none => rfl
  | some t => cases h2 : s.adcBuf2 <;> rfl

theorem dedCore_take (s : DedState) : dedCore (dedTakeBuffer s).2 = dedCore s := by
  unfold dedTakeBuffer
  cases h1 : s.adcBuf1 with
  | some b => rfl
  | none =>
    cases h2 : s.adcBuf2 with
    | some b => rfl
    | none => cases h3 : s.adcBuf3 <;> rfl

theorem dedCore_provide (s : DedState) (b : List Nat) (l : Nat) (accept : Bool) :
    dedCore (dedHwProvide s b l accept) = dedCore s := by
  unfold dedHwProvide
  cases accept with
  | true => rfl
  | false => simpa using dedCore_replace s b

theorem dedCore_provideMoreA (s : DedState) (app : DedApp) (accept : Bool) :
    dedCore (dedProvideMoreA s app accept).1 = dedCore s := by
  unfold dedProvideMoreA
  rcases h : dedTakeBuffer s with ⟨ob, s1⟩
  have hc : dedCore s1 = dedCore s := by
    have := dedCore_take s
    rw [h] at this
    exact this
  cases ob with
  | none => exact hc
  | some b => dsimp only; rw [dedCore_provide]; exact hc

theorem dedCore_provideNextA (s : DedState) (app : DedApp) (nextLen : Nat) (accept : Bool) :
    dedCore (dedProvideNextA s app nextLen accept).1 = dedCore s := by
  unfold dedProvideNextA
  rcases h : dedTakeBuffer s with ⟨ob, s1⟩
  have hc : dedCore s1 = dedCore s := by
    have := dedCore_take s
    rw [h] at this
    exact this
  cases ob with
  | none => exact hc
  | some b => dsimp only; rw [dedCore_provide]; exact hc

theorem dedCore_provideNextNextA (s : DedState) (app : DedApp) (curLen : Nat) (accept : Bool) :
    dedCore (dedProvideNextNextA s app curLen accept).1 = dedCore s := by
  unfold dedProvideNextNextA
  rcases h : dedTakeBuffer s with ⟨ob, s1⟩
  have hc : dedCore s1 = dedCore s := by
    have := dedCore_take s
    rw [h] at this
    exact this
  cases ob with
  | none => exact hc
  | some b => dsimp only; rw [dedCore_provide]; exact hc

theorem dedUnexpected_core (s : DedState) :
    dedCore (dedUnexpected s) = (false, .noMode, none, s.hw.violation) := by
  unfold dedUnexpected dedHwRetrieve
  cases hpid : s.processid with
  | none =>
    dsimp only
    split <;> split <;> ((try simp only [dedCore_replace]); rfl)
  | some id =>
    cases hl : alookup id s.apps with
    | some app =>
      simp only [hl]
      split <;> split <;> ((try simp only [dedCore_replace]); rfl)
    | none =>
      simp only [hl]
      split <;> split <;> ((try simp only [dedCore_replace]); rfl)

theorem dedRequestPhase_core (s : DedState) (app1 : DedApp) (curLen nextLen : Nat)
    (acc : List Bool) :
    dedCore (dedRequestPhase s app1 curLen nextLen acc).2.1 = dedCore s := by
  unfold dedRequestPhase
  by_cases h1 : app1.samples_remaining = 0
  · by_cases h2 : app1.samples_outstanding = 0
    · by_cases h3 : s.mode = .continuousBuffer
      · simp only [h1, h2, h3, if_true]
        split
        · exact dedCore_provideNextNextA s _ curLen (acc.headD false)
        · exact dedCore_provideMoreA s _ (acc.headD false)
      · simp [h1, h2, h3]
    · by_cases h3 : s.mode = .continuousBuffer
      · simp only [h1, h2, h3, if_true, Bool.false_eq_true, if_false]
        exact dedCore_provideNextA s app1 nextLen (acc.headD false)
      · simp [h1, h2, h3]
  · simp only [h1, Bool.false_eq_true, if_false]
    exact dedCore_provideMoreA s _ (acc.headD false)

theorem dedInv_cleared {s' : DedState} (hA : s'.hw.violation = false)
    (hB : s'.hw.op = none) : dedInv s' := by
  unfold dedInv
  rw [hB]
  exact ⟨hA, trivial⟩

theorem dedInv_highspeed {s' : DedState} (hA : s'.hw.violation = false)
    (hB : s'.hw.op = some .highspeed) (hC : s'.active = true)
    (hD : s'.mode = .singleBuffer ∨ s'.mode = .continuousBuffer) : dedInv s' := by
  unfold dedInv
  rw [hB]
  exact ⟨hA, hC, hD⟩

theorem dedReplaceBuffer_violation (s : DedState) (b : List Nat) :
    (dedReplaceBuffer s b).hw.violation = s.hw.violation :=
  congrArg (fun x => x.2.2.2) (dedCore_replace s b)

theorem dedReplaceBuffer_op (s : DedState) (b : List Nat) :
    (dedReplaceBuffer s b).hw.op = s.hw.op :=
  congrArg (fun x => x.2.2.1) (dedCore_replace s b)

theorem dedReplaceBuffer_active (s : DedState) (b : List Nat) :
    (dedReplaceBuffer s b).active = s.active :=
  congrArg Prod.fst (dedCore_replace s b)

theorem dedReplaceBuffer_mode (s : DedState) (b : List Nat) :
    (dedReplaceBuffer s b).mode = s.mode :=
  congrArg (fun x => x.2.1) (dedCore_replace s b)

theorem dedSamplesBody_inv (s : DedState) (id : Nat) (app : DedApp) (len : Nat)
    (acc : List Bool) (hv : s.hw.violation = false) (hact : s.active = true)
    (hmode : s.mode = .singleBuffer ∨ s.mode = .continuousBuffer)
    (hop : s.hw.op = some .highspeed) :
    dedInv (dedSamplesBody s id app len acc) := by
  unfold dedSamplesBody
  dsimp only
  rcases hreq : dedRequestPhase s
      { app with samples_outstanding := app.samples_outstanding - len }
      (if app.using_app_buf0 then app.buf0.length else app.buf1.length)
      (if app.using_app_buf0 then app.buf1.length else app.buf0.length) acc
    with ⟨perform, s1, app2⟩
  have hcore : dedCore s1 = dedCore s := by
    have h := dedRequestPhase_core s
      { app with samples_outstanding := app.samples_outstanding - len }
      (if app.using_app_buf0 then app.buf0.length else app.buf1.length)
      (if app.using_app_buf0 then app.buf1.length else app.buf0.length) acc
    rw [hreq] at h
    exact h
  have hact1 : s1.active = s.active := congrArg Prod.fst hcore
  have hmode1 : s1.mode = s.mode := congrArg (fun x => x.2.1) hcore
  have hop1 : s1.hw.op = s.hw.op := congrArg (fun x => x.2.2.1) hcore
  have hv1 : s1.hw.violation = s.hw.violation := congrArg (fun x => x.2.2.2) hcore
  dsimp only
  cases perform with
  | false =>
    simp only [Bool.false_eq_true, if_false]
    apply dedInv_highspeed
    · show s1.hw.violation = false
      rw [hv1]; exact hv
    · show s1.hw.op = some .highspeed
      rw [hop1]; exact hop
    · show s1.active = true
      rw [hact1]; exact hact
    · show s1.mode = .singleBuffer ∨ s1.mode = .continuousBuffer
      rw [hmode1]; exact hmode
  | true =>
    simp only [if_true]
    rcases hmode with hsb | hcb
    · rw [hmode1, hsb]
      simp only [if_pos rfl, dedHwRetrieve]
      try dsimp only
      cases hb1 : Option.map Prod.fst s1.hw.bufs.head? <;>
        cases hb2 : Option.map Prod.fst (List.drop 1 s1.hw.bufs).head? <;>
          refine dedInv_cleared ?_ ?_ <;>
            (try simp only [if_true, dedReplaceBuffer_violation, dedReplaceBuffer_op]) <;>
          first
            | rfl
            | (show s1.hw.violation = false; rw [hv1]; exact hv)
    · rw [hmode1, hcb]
      simp only [reduceCtorEq, Bool.false_eq_true, if_false]
      apply dedInv_highspeed
      · show s1.hw.violation = false
        rw [hv1]; exact hv
      · show s1.hw.op = some .highspeed
        rw [hop1]; exact hop
      · show s1.active = true
        rw [hact1]; exact hact
      · exact Or.inr rfl

theorem dedInv_single {s' : DedState} (hA : s'.hw.violation = false)
    (hB : s'.hw.op = some .single) (hC : s'.active = true)
    (hD : s'.mode = .singleSample) : dedInv s' := by
  unfold dedInv
  rw [hB]
  exact ⟨hA, hC, hD⟩

theorem dedInv_continuous {s' : DedState} (hA : s'.hw.violation = false)
    (hB : s'.hw.op = some .continuous) (hC : s'.active = true)
    (hD : s'.mode = .continuousSample) : dedInv s' := by
  unfold dedInv
  rw [hB]
  exact ⟨hA, hC, hD⟩

theorem dedSamplesReady_inv (s : DedState) (buf : List Nat) (len : Nat)
    (acc : List Bool) (hv : s.hw.violation = false) (hact : s.active = true)
    (hmode : s.mode = .singleBuffer ∨ s.mode = .continuousBuffer)
    (hop : s.hw.op = some .highspeed) :
    dedInv (dedSamplesReady s buf len acc) := by
  unfold dedSamplesReady
  have hrv : (dedReplaceBuffer s buf).hw.violation = false := by
    rw [dedReplaceBuffer_violation]; exact hv
  have hro : (dedReplaceBuffer s buf).hw.op = some .highspeed := by
    rw [dedReplaceBuffer_op]; exact hop
  have hra : (dedReplaceBuffer s buf).active = true := by
    rw [dedReplaceBuffer_active]; exact hact
  have hrm : (dedReplaceBuffer s buf).mode = s.mode := dedReplaceBuffer_mode s buf
  have hcond : ((dedReplaceBuffer s buf).active &&
      (decide ((dedReplaceBuffer s buf).mode = AdcMode.singleBuffer) ||
       decide ((dedReplaceBuffer s buf).mode = AdcMode.continuousBuffer))) = true := by
    rw [hra, hrm]
    rcases hmode with hm | hm <;> simp [hm]
  rw [if_pos hcond]
  cases hpid : (dedReplaceBuffer s buf).processid with
  | none =>
    exact dedInv_highspeed hrv hro hra (by rw [hrm]; exact hmode)
  | some id =>
    dsimp only
    cases hl : alookup id (dedReplaceBuffer s buf).apps with
    | none =>
      apply dedInv_cleared
      · have h := dedUnexpected_core { dedReplaceBuffer s buf with processid := none }
        exact (congrArg (fun x => x.2.2.2) h).trans hrv
      · have h := dedUnexpected_core { dedReplaceBuffer s buf with processid := none }
        exact congrArg (fun x => x.2.2.1) h
    | some app =>
      exact dedSamplesBody_inv (dedReplaceBuffer s buf) id app len acc hrv hra
        (by rw [hrm]; exact hmode) hro

theorem dedSampleReady_inv_none (s : DedState) (v : Nat)
    (hop : s.hw.op = none) (hv : s.hw.violation = false) :
    dedInv (dedSampleReady s v) := by
  unfold dedSampleReady dedNoCallback
  dsimp only
  repeat' split
  all_goals first
    | exact dedInv_cleared hv hop
    | exact dedInv_cleared hv rfl

theorem dedSampleReady_inv_cont (s : DedState) (v : Nat)
    (hop : s.hw.op = some .continuous) (hact : s.active = true)
    (hm : s.mode = .continuousSample) (hv : s.hw.violation = false) :
    dedInv (dedSampleReady s v) := by
  unfold dedSampleReady dedNoCallback
  rw [hact, hm]
  simp only [reduceCtorEq, decide_False, Bool.true_and, Bool.false_eq_true, if_false,
    decide_True, if_true]
  cases hpid : s.processid with
  | none => exact dedInv_cleared hv rfl
  | some id =>
    dsimp only
    cases hl : alookup id s.apps with
    | none => exact dedInv_cleared hv rfl
    | some app => exact dedInv_continuous hv hop rfl rfl

theorem cmdOf_snd (x : Except ErrorCode Unit × DedState) : (cmdOf x).2 = x.2 := by
  rcases x with ⟨r, st⟩
  cases r <;> rfl

theorem dedSample_inv (s : DedState) (ch : Nat) (accept : Bool) (h : dedInv s) :
    dedInv (dedSample s ch accept).2 := by
  unfold dedSample
  cases hact : s.active with
  | true => simp only [hact, if_true]; exact h
  | false =>
    have hop := dedInv_op_none h hact
    simp only [hact, Bool.false_eq_true, if_false]
    by_cases hch : s.numChannels ≤ ch
    · simp only [hch, if_true]; exact h
    · simp only [hch, if_false]
      unfold dedHwSample
      cases accept with
      | true =>
        dsimp only
        apply dedInv_single
        · show (s.hw.violation || s.hw.op.isSome) = false
          rw [hop, h.1]; rfl
        · rfl
        · rfl
        · rfl
      | false =>
        dsimp only
        apply dedInv_cleared
        · show (s.hw.violation || s.hw.op.isSome) = false
          rw [hop, h.1]; rfl
        · exact hop

theorem dedSampleContinuous_inv (s : DedState) (ch freq : Nat) (accept : Bool)
    (h : dedInv s) : dedInv (dedSampleContinuous s ch freq accept).2 := by
  unfold dedSampleContinuous
  cases hact : s.active with
  | true => simp only [hact, if_true]; exact h
  | false =>
    have hop := dedInv_op_none h hact
    simp only [hact, Bool.false_eq_true, if_false]
    by_cases hch : s.numChannels ≤ ch
    · simp only [hch, if_true]; exact h
    · simp only [hch, if_false]
      unfold dedHwSampleContinuous
      cases accept with
      | true =>
        dsimp only
        apply dedInv_continuous
        · show (s.hw.violation || s.hw.op.isSome) = false
          rw [hop, h.1]; rfl
        · rfl
        · rfl
        · rfl
      | false =>
        dsimp only
        apply dedInv_cleared
        · show (s.hw.violation || s.hw.op.isSome) = false
          rw [hop, h.1]; rfl
        · exact hop

theorem dedSampleBuffer_inv (s : DedState) (ch freq : Nat) (accept : Bool)
    (h : dedInv s) : dedInv (dedSampleBuffer s ch freq accept).2 := by
  unfold dedSampleBuffer
  cases hact : s.active with
  | true => simp only [hact, if_true]; exact h
  | false =>
    have hop := dedInv_op_none h hact
    simp only [hact, Bool.false_eq_true, if_false]
    by_cases hch : s.numChannels ≤ ch
    · simp only [hch, if_true]; exact h
    · simp only [hch, if_false]
      cases hpid : s.processid with
      | none => exact h
      | some id =>
        try dsimp only
        cases hl : alookup id s.apps with
        | none => exact dedInv_cleared h.1 hop
        | some app0 =>
          by_cases hlen : app0.buf0.length = 0
          · simp only [hlen, if_pos rfl]; exact h
          · simp only [hlen, if_false]
            try dsimp only
            cases hb1 : s.adcBuf1 with
            | none =>
              try dsimp only
              exact dedInv_cleared h.1 hop
            | some buf1 =>
              try dsimp only
              cases hb2 : s.adcBuf2 with
              | none =>
                try dsimp only
                exact dedInv_cleared h.1 hop
              | some buf2 =>
                try dsimp only
                unfold dedHwSampleHighspeed
                cases accept with
                | true =>
                  simp only [if_true]
                  try dsimp only
                  apply dedInv_highspeed
                  · show (s.hw.violation || s.hw.op.isSome) = false
                    rw [hop, h.1]; rfl
                  · rfl
                  · rfl
                  · exact Or.inl rfl
                | false =>
                  simp only [Bool.false_eq_true, if_false]
                  try dsimp only
                  apply dedInv_cleared
                  · try dsimp only
                    try simp only [dedReplaceBuffer_violation]
                    show (s.hw.violation || s.hw.op.isSome) = false
                    rw [hop, h.1]; rfl
                  · try dsimp only
                    try simp only [dedReplaceBuffer_op]
                    exact hop

theorem dedSampleBufferContinuous_inv (s : DedState) (ch freq : Nat) (accept : Bool)
    (h : dedInv s) : dedInv (dedSampleBufferContinuous s ch freq accept).2 := by
  unfold dedSampleBufferContinuous
  cases hact : s.active with
  | true => simp only [hact, if_true]; exact h
  | false =>
    have hop := dedInv_op_none h hact
    simp only [hact, Bool.false_eq_true, if_false]
    by_cases hch : s.numChannels ≤ ch
    · simp only [hch, if_true]; exact h
    · simp only [hch, if_false]
      cases hpid : s.processid with
      | none => exact h
      | some id =>
        try dsimp only
        cases hl : alookup id s.apps with
        | none => exact dedInv_cleared h.1 hop
        | some app0 =>
          by_cases hlen : app0.buf0.length = 0 || app0.buf1.length = 0
          · simp only [hlen, if_true]; exact h
          · simp only [hlen, Bool.false_eq_true, if_false]
            try dsimp only
            cases hb1 : s.adcBuf1 with
            | none =>
              try dsimp only
              exact dedInv_cleared h.1 hop
            | some buf1 =>
              try dsimp only
              cases hb2 : s.adcBuf2 with
              | none =>
                try dsimp only
                exact dedInv_cleared h.1 hop
              | some buf2 =>
                try dsimp only
                unfold dedHwSampleHighspeed
                cases accept with
                | true =>
                  simp only [if_true]
                  try dsimp only
                  apply dedInv_highspeed
                  · show (s.hw.violation || s.hw.op.isSome) = false
                    rw [hop, h.1]; rfl
                  · rfl
                  · rfl
                  · exact Or.inr rfl
                | false =>
                  simp only [Bool.false_eq_true, if_false]
                  try dsimp only
                  apply dedInv_cleared
                  · try dsimp only
                    try simp only [dedReplaceBuffer_violation]
                    show (s.hw.violation || s.hw.op.isSome) = false
                    rw [hop, h.1]; rfl
                  · try dsimp only
                    try simp only [dedReplaceBuffer_op]
                    exact hop

theorem dedStopSampling_inv (s : DedState) (h : dedInv s) :
    dedInv (dedStopSampling s).2 := by
  unfold dedStopSampling
  split
  · exact h
  · cases hpid : s.processid with
    | none => exact h
    | some id =>
      try dsimp only
      cases hl : alookup id s.apps with
      | none => exact h
      | some app =>
        try dsimp only
        unfold dedHwRetrieve
        dsimp only
        cases hx1 : Option.map Prod.fst s.hw.bufs.head? <;>
          cases hx2 : Option.map Prod.fst (List.drop 1 s.hw.bufs).head? <;>
            refine dedInv_cleared ?_ ?_ <;>
              (try simp only [if_true, dedReplaceBuffer_violation, dedReplaceBuffer_op]) <;>
            first
              | rfl
              | exact h.1

theorem dedCommand_inv (s : DedState) (num ch freq pid : Nat) (accept : Bool)
    (h : dedInv s) : dedInv (dedCommand s num ch freq pid accept).2 := by
  unfold dedCommand
  dsimp only
  repeat' split
  all_goals first
    | exact h
    | (rw [cmdOf_snd]
       first
         | exact dedSample_inv _ ch accept h
         | exact dedSampleContinuous_inv _ ch freq accept h
         | exact dedSampleBuffer_inv _ ch freq accept h
         | exact dedSampleBufferContinuous_inv _ ch freq accept h
         | exact dedStopSampling_inv _ h)

theorem dedStep_inv (s : DedState) (e : DedEv) (h : dedInv s) :
    dedInv (dedStep s e) := by
  cases e with
  | spawn pid b0 b1 p0 p1 =>
    unfold dedStep
    dsimp only
    split
    · exact h
    · exact h
  | destroy pid => exact h
  | command pid num channel freq accept => exact dedCommand_inv s num channel freq pid accept h
  | sampleReady sample =>
    unfold dedStep
    cases hop : s.hw.op with
    | none => exact h
    | some k =>
      cases k with
      | single =>
        dsimp only
        exact dedSampleReady_inv_none _ sample rfl h.1
      | continuous =>
        dsimp only
        have hmk := h.2
        rw [hop] at hmk
        exact dedSampleReady_inv_cont s sample hop hmk.1 hmk.2 h.1
      | highspeed => exact h
  | samplesReady samples acc =>
    unfold dedStep
    cases hop : s.hw.op with
    | none => exact h
    | some k =>
      cases k with
      | single => exact h
      | continuous => exact h
      | highspeed =>
        dsimp only
        cases hbufs : s.hw.bufs with
        | nil => exact h
        | cons bl rest =>
          rcases bl with ⟨b, l⟩
          dsimp only
          have hmk := h.2
          rw [hop] at hmk
          exact dedSamplesReady_inv _ _ _ acc h.1 hmk.1 hmk.2 hop

theorem dedFoldl_inv (evs : List DedEv) :
    ∀ s, dedInv s → dedInv (evs.foldl dedStep s) := by
  induction evs with
  | nil => intro s h; exact h
  | cons e rest ih => intro s h; exact ih (dedStep s e) (dedStep_inv s e h)

theorem dedRun_inv (nch : Nat) (evs : List DedEv) : dedInv (dedRun nch evs) := by
  apply dedFoldl_inv
  exact ⟨rfl, trivial⟩

/-! ## Nonvolatile-storage lemmas -/

theorem nvDriverCall_upcalls (s : NvState) (c : NvCommand) (b : List Nat)
    (addr len : Nat) (accept : Option ErrorCode) :
    (nvDriverCall s c b addr len accept).2.upcalls = s.upcalls := by
  unfold nvDriverCall
  cases accept <;> rfl

theorem nvUserspaceCallDriver_upcalls (s : NvState) (c : NvCommand) (off len : Nat)
    (accept : Option ErrorCode) :
    (nvUserspaceCallDriver s c off len accept).2.upcalls = s.upcalls := by
  unfold nvUserspaceCallDriver
  cases hb : s.buffer with
  | none => rfl
  | some buffer => cases c <;> simp [nvDriverCall_upcalls]

theorem nvCheckQueueApps_upcalls (pids : List Nat) :
    ∀ (s : NvState) (acc : List (Option ErrorCode)),
      (nvCheckQueueApps s acc pids).upcalls = s.upcalls := by
  induction pids with
  | nil => intro s acc; rfl
  | cons pid rest ih =>
    intro s acc
    unfold nvCheckQueueApps
    cases hl : alookup pid s.apps with
    | none => simp [hl, ih]
    | some app =>
      cases hpend : app.pending_command with
      | false => simp [hl, hpend, ih]
      | true =>
        simp only [hl, hpend, if_true]
        rcases hcall : nvUserspaceCallDriver
            { s with
              apps := aupdate pid (fun a => { a with pending_command := false }) s.apps
              current_user := some (.app pid) }
            app.command app.offset app.length (acc.headD none) with ⟨r, s3⟩
        have hup := nvUserspaceCallDriver_upcalls
            { s with
              apps := aupdate pid (fun a => { a with pending_command := false }) s.apps
              current_user := some (.app pid) }
            app.command app.offset app.length (acc.headD none)
        rw [hcall] at hup
        dsimp only at hup
        cases r with
        | ok _ => simpa using hup
        | error e => simp [ih, hup]

theorem nvCheckQueue_upcalls (s : NvState) (acc : List (Option ErrorCode)) :
    (nvCheckQueue s acc).upcalls = s.upcalls := by
  unfold nvCheckQueue
  cases hk : s.kernel_pending_command with
  | false => simp [hk, nvCheckQueueApps_upcalls]
  | true =>
    simp only [hk, if_true]
    cases hb : s.kernel_buffer with
    | none => rfl
    | some kb => simp [nvDriverCall_upcalls]

/-! ## Further PWM lemmas -/

theorem pwmFindDev_id (id : Nat) :
    ∀ devs d0, pwmFindDev id devs = some d0 → d0.id = id := by
  intro devs
  induction devs with
  | nil => intro d0 h; cases h
  | cons d rest ih =>
    intro d0 h
    unfold pwmFindDev at h
    by_cases hd : d.id = id
    · rw [if_pos hd] at h; cases h; exact hd
    · rw [if_neg hd] at h; exact ih d0 h

theorem pwmFindPending_setOp (id : Nat) (op : PwmOp) :
    ∀ devs, (∀ dev ∈ devs, dev.operation = none) →
      pwmFindPending (pwmSetOp id op devs) =
        (pwmFindDev id devs).map fun d => { d with operation := some op } := by
  intro devs
  induction devs with
  | nil => intro _; rfl
  | cons d rest ih =>
    intro hempty
    unfold pwmSetOp pwmFindPending pwmFindDev
    by_cases hd : d.id = id
    · simp [hd]
    · have hdo : d.operation = none := hempty d (by simp)
      simp only [hd, if_false, List.map_cons, hdo]
      simp only [Option.isSome_none, Bool.false_eq_true, if_false]
      exact ih fun dev hm => hempty dev (by simp [hm])

theorem pwmTakeOp_setOp (id : Nat) (op : PwmOp) :
    ∀ devs, (pwmFindDev id devs).isSome →
      (pwmTakeOp id (pwmSetOp id op devs)).1 = some op := by
  intro devs
  induction devs with
  | nil => intro h; cases h
  | cons d rest ih =>
    intro hfind
    unfold pwmSetOp pwmTakeOp
    by_cases hd : d.id = id
    · simp [hd]
    · simp only [hd, if_false, List.map_cons]
      unfold pwmFindDev at hfind
      rw [if_neg hd] at hfind
      have := ih hfind
      unfold pwmSetOp at this
      simp only [this]

theorem pwmStart_idle (m : MuxPwm) (id f d : Nat)
    (hinf : m.inflight = none)
    (hempty : ∀ dev ∈ m.devices, dev.operation = none)
    (hid : (pwmFindDev id m.devices).isSome) :
    (pwmStart m id f d).1 = Except.ok () ∧
    (pwmStart m id f d).2.inflight = some id ∧
    (pwmStart m id f d).2.hwLog = m.hwLog ++ [.start id f d] := by
  obtain ⟨d0, hd0⟩ := Option.isSome_iff_exists.mp hid
  have hdid : d0.id = id := pwmFindDev_id id m.devices d0 hd0
  unfold pwmStart doNextOp
  rcases hfuel : pwmOpsCount (pwmSetOp id (.simple f d) m.devices) with _ | n
  · exfalso
    unfold pwmOpsCount at hfuel
    rw [List.countP_eq_zero] at hfuel
    have hfp := pwmFindPending_setOp id (.simple f d) m.devices hempty
    rw [hd0] at hfp
    have hmem : ({ d0 with operation := some (.simple f d) } : PwmPinUser) ∈
        pwmSetOp id (.simple f d) m.devices := by
      have : pwmFindPending (pwmSetOp id (.simple f d) m.devices) =
        some { d0 with operation := some (.simple f d) } := hfp
      clear hfp
      revert this
      generalize pwmSetOp id (.simple f d) m.devices = l
      induction l with
      | nil => intro h; cases h
      | cons x rest ih =>
        intro h
        unfold pwmFindPending at h
        by_cases hx : x.operation.isSome
        · rw [if_pos hx] at h
          cases h
          exact List.mem_cons_self _ _
        · rw [if_neg hx] at h
          exact List.mem_cons_of_mem _ (ih h)
    have := hfuel _ hmem
    simp at this
  · dsimp only
    unfold doNextOpF
    dsimp only
    rw [hinf]
    have hfp := pwmFindPending_setOp id (.simple f d) m.devices hempty
    rw [hd0] at hfp
    dsimp only [Option.map] at hfp
    rw [hfp]
    dsimp only
    rw [hdid]
    have htake := pwmTakeOp_setOp id (.simple f d) m.devices hid
    rw [htake]
    dsimp only
    unfold pwmHwStart
    simp [hinf, hdid]

/-! ## Copy-loop lemmas for the chunked-capture scenario -/

theorem samplesLE_length : ∀ l : List Nat, (samplesLE l).length = 2 * l.length := by
  intro l
  induction l with
  | nil => rfl
  | cons v vs ih => simp [samplesLE, ih]; omega

theorem copySamples_replicate :
    ∀ (samples rest : List Nat),
      copySamples (List.replicate (2 * samples.length) 0) 0 (samples ++ rest)
        samples.length = samplesLE samples := by
  intro samples
  induction samples with
  | nil => intro rest; rfl
  | cons v vs ih =>
    intro rest
    have h2 : 2 * (vs.length + 1) = 2 * vs.length + 1 + 1 := by omega
    simp only [List.length_cons, h2, List.replicate_succ, List.cons_append]
    have ih2 := ih rest
    unfold copySamples at ih2 ⊢
    simp only [chunks2, copyChunks, writeChunk, samplesLE, List.flatten_cons]
    simp [ih2]

theorem dedSampleBufferScenario (nch pid n ch freq ptr p1 : Nat)
    (hn0 : 0 < n) (hn : n ≤ 128) (hch : ch < nch) :
    dedCommand
      { dedInit nch with
          apps := [(pid, { buf0 := List.replicate (2 * n) 0, ptr0 := ptr, ptr1 := p1 })] }
      3 ch freq pid true =
    (CommandReturn.success,
     { active := true
       mode := .singleBuffer
       channel := ch
       numChannels := nch
       resolutionBits := 12
       voltageRefMv := none
       processid := some pid
       apps := [(pid,
         { app_buf_offset := 0, samples_remaining := 0, samples_outstanding := n,
           next_samples_outstanding := 0, using_app_buf0 := true,
           buf0 := List.replicate (2 * n) 0, buf1 := [], ptr0 := ptr, ptr1 := p1 })]
       adcBuf1 := none
       adcBuf2 := none
       adcBuf3 := some (List.replicate 128 0)
       hw := { op := some .highspeed
               bufs := [(List.replicate 128 0, n), (List.replicate 128 0, 0)]
               chanReq := ch
               freqReq := freq
               violation := false }
       upcalls := [] }) := by
  have hch2 : ¬ nch ≤ ch := by omega
  have hdiv : 2 * n / 2 = n := by omega
  have hne : ¬ (2 * n = 0) := by omega
  unfold dedCommand dedSampleBuffer dedHwSampleHighspeed dedInit cmdOf
  simp [alookup, aupdate, hch2, hdiv, hn, hne]

theorem dedSamplesReadyScenario (nch pid n ch freq ptr p1 : Nat) (samples : List Nat)
    (hn0 : 0 < n) (hn : n ≤ 128) (hlen : samples.length = n) :
    dedStep
      { active := true
        mode := .singleBuffer
        channel := ch
        numChannels := nch
        resolutionBits := 12
        voltageRefMv := none
        processid := some pid
        apps := [(pid,
          { app_buf_offset := 0, samples_remaining := 0, samples_outstanding := n,
            next_samples_outstanding := 0, using_app_buf0 := true,
            buf0 := List.replicate (2 * n) 0, buf1 := [], ptr0 := ptr, ptr1 := p1 })]
        adcBuf1 := none
        adcBuf2 := none
        adcBuf3 := some (List.replicate 128 0)
        hw := { op := some .highspeed
                bufs := [(List.replicate 128 0, n), (List.replicate 128 0, 0)]
                chanReq := ch
                freqReq := freq
                violation := false }
        upcalls := [] }
      (.samplesReady samples []) =
    { active := false
      mode := .noMode
      channel := ch
      numChannels := nch
      resolutionBits := 12
      voltageRefMv := none
      processid := some pid
      apps := [(pid,
        { app_buf_offset := 0, samples_remaining := 0, samples_outstanding := 0,
          next_samples_outstanding := 0, using_app_buf0 := true,
          buf0 := samplesLE samples, buf1 := [], ptr0 := ptr, ptr1 := p1 })]
      adcBuf1 := some (samples ++ List.replicate (128 - n) 0)
      adcBuf2 := some (List.replicate 128 0)
      adcBuf3 := some (List.replicate 128 0)
      hw := { op := none
              bufs := []
              chanReq := ch
              freqReq := freq
              violation := false }
      upcalls := [⟨pid, 0, 2, n * 256 + ch % 256, ptr⟩] } := by
  subst hlen
  have hdiv : 2 * samples.length / 2 = samples.length := by omega
  have hcopy := copySamples_replicate samples (List.replicate (128 - samples.length) 0)
  unfold dedStep dedSamplesReady dedSamplesBody dedRequestPhase dedReplaceBuffer
    dedHwRetrieve AdcMode.toNat
  simp [alookup, aupdate, hcopy, samplesLE_length, hdiv, List.take_length,
    List.drop_replicate, -List.reduceReplicate]

/-! ## Claim-support lemmas -/

theorem advEnqueue_busy (s : AdcVState) (cmd : AdcOperation) (ch pid : Nat)
    (acc : List (Option ErrorCode)) (hch : ch < s.numDrivers)
    (hcur : s.current_process.isNone = false) (app : AppSys)
    (hl : alookup pid s.apps = some app) (hp : app.pending_command = true) :
    advEnqueue s cmd ch pid acc = (Except.error .busy, s) := by
  unfold advEnqueue
  simp [hch, hcur, hl, hp]

theorem nvEnqueue_busy_read (s : NvState) (off len pid : Nat)
    (acc : Option ErrorCode)
    (h1 : off < s.userspace_length) (h2 : len ≤ s.userspace_length)
    (h3 : off + len ≤ s.userspace_length)
    (app : NvApp) (hl : alookup pid s.apps = some app)
    (hallow : app.readBuf.length ≠ 0) (hbuf : s.buffer.isNone = false)
    (hcur : s.current_user.isNone = false) (hp : app.pending_command = true) :
    nvEnqueueCommand s .userspaceRead off len (some pid) acc =
      (Except.error .nomem, s) := by
  unfold nvEnqueueCommand
  have hb : ¬ (off ≥ s.userspace_length || len > s.userspace_length ||
      off + len > s.userspace_length) = true := by
    simp
    omega
  simp [hb, hl, hallow, hbuf, hcur, hp]

theorem nvEnqueue_busy_write (s : NvState) (off len pid : Nat)
    (acc : Option ErrorCode)
    (h1 : off < s.userspace_length) (h2 : len ≤ s.userspace_length)
    (h3 : off + len ≤ s.userspace_length)
    (app : NvApp) (hl : alookup pid s.apps = some app)
    (hallow : app.writeBuf.length ≠ 0) (hbuf : s.buffer.isNone = false)
    (hcur : s.current_user.isNone = false) (hp : app.pending_command = true) :
    nvEnqueueCommand s .userspaceWrite off len (some pid) acc =
      (Except.error .nomem, s) := by
  unfold nvEnqueueCommand
  have hb : ¬ (off ≥ s.userspace_length || len > s.userspace_length ||
      off + len > s.userspace_length) = true := by
    simp
    omega
  simp [hb, hl, hallow, hbuf, hcur, hp]

theorem nvEnqueue_reserve_read (s : NvState) (off len pid : Nat)
    (a : Option ErrorCode)
    (h1 : off < s.userspace_length) (h2 : len ≤ s.userspace_length)
    (h3 : off + len ≤ s.userspace_length)
    (app : NvApp) (hl : alookup pid s.apps = some app)
    (hbuf : s.buffer.isNone = true) :
    nvEnqueueCommand s .userspaceRead off len (some pid) a =
      (Except.error .reserve, s) := by
  unfold nvEnqueueCommand
  have hb : ¬ (off ≥ s.userspace_length || len > s.userspace_length ||
      off + len > s.userspace_length) = true := by
    simp
    omega
  simp [hb, hl, hbuf]

theorem nvEnqueue_reserve_write (s : NvState) (off len pid : Nat)
    (a : Option ErrorCode)
    (h1 : off < s.userspace_length) (h2 : len ≤ s.userspace_length)
    (h3 : off + len ≤ s.userspace_length)
    (app : NvApp) (hl : alookup pid s.apps = some app)
    (hbuf : s.buffer.isNone = true) :
    nvEnqueueCommand s .userspaceWrite off len (some pid) a =
      (Except.error .reserve, s) := by
  unfold nvEnqueueCommand
  have hb : ¬ (off ≥ s.userspace_length || len > s.userspace_length ||
      off + len > s.userspace_length) = true := by
    simp
    omega
  simp [hb, hl, hbuf]

theorem pwmSetOp_overwrites (devs : List PwmPinUser) (id : Nat) (op : PwmOp) :
    ∀ dev ∈ pwmSetOp id op devs, dev.id = id → dev.operation = some op := by
  intro dev hm hid
  unfold pwmSetOp at hm
  rcases List.mem_map.mp hm with ⟨d, hd, heq⟩
  by_cases h : d.id = id
  · rw [if_pos h] at heq
    rw [← heq]
  · rw [if_neg h] at heq
    subst heq
    exact absurd hid h

theorem advRunNextAux_skip (s : AdcVState) (cmd0 : AdcOperation)
    (acc : List (Option ErrorCode)) (pid : Nat) (rest : List Nat) (app : AppSys)
    (hl : alookup pid s.apps = some app) (hp : app.pending_command = false) :
    advRunNextAux s cmd0 acc (pid :: rest) = advRunNextAux s cmd0 acc rest := by
  conv =>
    lhs
    unfold advRunNextAux
  simp only [hl, hp, Bool.false_eq_true, if_false]

theorem advRunNextAux_accept (s : AdcVState) (cmd0 : AdcOperation)
    (acc : List (Option ErrorCode)) (pid : Nat) (rest : List Nat) (app : AppSys)
    (hl : alookup pid s.apps = some app) (hp : app.pending_command = true)
    (hch : app.channel < s.numDrivers) (hacc : acc.headD none = none) :
    advRunNextAux s cmd0 acc (pid :: rest) =
      { s with
        apps := aupdate pid (fun a =>
          { a with pending_command := false, command := none }) s.apps
        current_process := some pid
        violation := s.violation || s.hwBusy
        hwBusy := true } := by
  have hacc2 : acc.head?.getD none = none := by
    cases acc <;> simp_all
  unfold advRunNextAux advCallDriver
  cases happ : app.command.getD cmd0
  simp [hl, hp, hch, hacc2]

theorem advRunNextAux_reject (s : AdcVState) (cmd0 : AdcOperation)
    (acc : List (Option ErrorCode)) (pid : Nat) (rest : List Nat) (app : AppSys)
    (e : ErrorCode) (hl : alookup pid s.apps = some app)
    (hp : app.pending_command = true) (hch : app.channel < s.numDrivers)
    (hacc : acc.headD none = some e) :
    advRunNextAux s cmd0 acc (pid :: rest) =
      advRunNextAux
        { s with
          apps := aupdate pid (fun a =>
            { a with pending_command := false, command := none }) s.apps
          current_process := none
          violation := s.violation || s.hwBusy }
        (app.command.getD cmd0) acc.tail rest := by
  have hacc2 : acc.head?.getD none = some e := by
    cases acc <;> simp_all
  conv =>
    lhs
    unfold advRunNextAux
  simp only [hl, hp, if_true]
  unfold advCallDriver
  cases happ : app.command.getD cmd0
  simp [hch, hacc2]

theorem advRunNext_no_start_idle (s : AdcVState) (acc : List (Option ErrorCode))
    (hb : s.hwBusy = false) (hcur : s.current_process = none)
    (hv : s.violation = false)
    (hnostart : (advRunNext s acc).hwBusy = false) :
    (advRunNext s acc).current_process = none := by
  have h := advRunNext_inv s acc hb hcur hv
  have h2 := h.2.1
  rw [hnostart] at h2
  cases hcc : (advRunNext s acc).current_process with
  | none => rfl
  | some q => rw [hcc] at h2; cases h2

theorem nvCheckQueue_kernel_first (s : NvState) (acc : List (Option ErrorCode))
    (kb : List Nat) (hk : s.kernel_pending_command = true)
    (hb : s.kernel_buffer = some kb) (hacc : acc.headD none = none) :
    (nvCheckQueue s acc).current_user = some .kernel ∧
    (nvCheckQueue s acc).hw.busy = true := by
  have hacc2 : acc.head?.getD none = none := by
    cases acc <;> simp_all
  unfold nvCheckQueue nvDriverCall
  simp [hk, hb, hacc2]

theorem nvCheckQueueApps_dispatch (s : NvState) (acc : List (Option ErrorCode))
    (pid : Nat) (rest : List Nat) (app : NvApp)
    (hl : alookup pid s.apps = some app) (hp : app.pending_command = true) :
    nvCheckQueueApps s acc (pid :: rest) =
      (match nvUserspaceCallDriver
          { s with
            apps := aupdate pid (fun a => { a with pending_command := false }) s.apps
            current_user := some (.app pid) }
          app.command app.offset app.length (acc.headD none) with
       | (.ok _, s3) => s3
       | (.error _, s3) => nvCheckQueueApps s3 acc.tail rest) := by
  conv =>
    lhs
    unfold nvCheckQueueApps
  simp only [hl, hp, if_true]
  rcases hc : nvUserspaceCallDriver
      { s with
        apps := aupdate pid (fun a => { a with pending_command := false }) s.apps
        current_user := some (.app pid) }
      app.command app.offset app.length (acc.headD none) with ⟨r, s3⟩
  cases r <;> rfl

theorem advStep_dead_owner (s : AdcVState) (sample : Nat)
    (acc : List (Option ErrorCode)) (pid : Nat)
    (hb : s.hwBusy = true) (hcur : s.current_process = some pid)
    (hl : alookup pid s.apps = none) :
    advStep s (.sampleReady sample acc) =
      advRunNext { s with hwBusy := false, current_process := none } acc := by
  unfold advStep advSampleReady
  simp [hb, hcur, hl]

theorem advRunNext_upcalls (s : AdcVState) (acc : List (Option ErrorCode)) :
    (advRunNext s acc).upcalls = s.upcalls :=
  advRunNextAux_upcalls _ s _ acc

theorem nvWriteDone_dead (s : NvState) (buffer : List Nat) (length : Nat)
    (acc : List (Option ErrorCode)) (pid : Nat)
    (hcur : s.current_user = some (.app pid)) (hl : alookup pid s.apps = none) :
    nvWriteDone s buffer length acc =
      nvCheckQueue
        { s with current_user := none,
                 hw := { s.hw with busy := false, heldBuf := none } } acc := by
  unfold nvWriteDone
  simp [hcur, hl]

theorem dedCommand_guard (s : DedState) (num ch freq pid : Nat) (accept : Bool)
    (owner : Nat) (hpid : s.processid = some owner) (hact : s.active = true)
    (hne : (owner = pid) = False) :
    dedCommand s num ch freq pid accept = (.failure .nomem, s) := by
  unfold dedCommand
  simp [hpid, hact, hne]

theorem advEnqueue_reject (s : AdcVState) (cmd : AdcOperation) (ch pid : Nat)
    (e : ErrorCode) (acc' : List (Option ErrorCode))
    (hch : ch < s.numDrivers) (hcur : s.current_process = none) (hb : s.hwBusy = false)
    (hfree : ∀ p a, alookup p s.apps = some a → a.pending_command = false) :
    advEnqueue s cmd ch pid (some e :: acc') = (Except.ok (), s) := by
  obtain ⟨nd, apps, cur, busy, viol, up⟩ := s
  try dsimp only at hcur hb hch hfree
  subst hcur
  subst hb
  cases cmd
  unfold advEnqueue advCallDriver advRunNext
  simp only [hch, if_true, Option.isNone_none, List.headD_cons, List.tail_cons]
  try dsimp only
  have hno := advRunNextAux_noop (apps.map Prod.fst)
    ⟨nd, apps, none, false, viol || false, up⟩ .oneSample acc' hfree
  simp only [Bool.or_false] at hno ⊢
  rw [hno]

theorem rngCommand_always_accepts (s : RngState) (data pid : Nat) (app : RngApp)
    (hl : alookup pid s.apps = some app) :
    (rngCommand s 1 data pid).1 = .success ∧
    alookup pid (rngCommand s 1 data pid).2.apps = some ⟨data, 0⟩ := by
  unfold rngCommand
  cases hg : s.getting_randomness <;>
    simp [hl, hg, alookup_aupdate_self]

/-! ## Claim theorems -/

/-- Claim C1: for every sequence of request and completion events on any of
the three arbiters (shared PWM mux, virtualized ADC, dedicated ADC), the
underlying hardware never receives a second operation-start call while one
is still in flight: the sticky instrumentation flag recording such a
double start stays clear on every reachable state. -/
theorem claim_C1 :
    (∀ evs : List PwmEv, (pwmRun evs).violation = false) ∧
    (∀ (n : Nat) (evs : List AdcVEv), (advRun n evs).violation = false) ∧
    (∀ (nch : Nat) (evs : List DedEv), (dedRun nch evs).hw.violation = false) := by
  refine ⟨fun evs => ?_, fun n evs => (advRun_inv n evs).1,
          fun nch evs => (dedRun_inv nch evs).1⟩
  unfold pwmRun
  rw [pwmFoldl_violation]
  rfl

/-- Claim C2: refuted by the code — when `read_done` arrives while the
owning process has been destroyed, the nonvolatile-storage capsule drops
the transfer buffer instead of reclaiming it: afterwards the buffer is in
no holder at all (not in the free pool `buffer`, not with the hardware,
and no client was notified), because the source replaces `self.buffer`
only inside the grant-enter closure that requires a live owner. -/
theorem claim_C2 :
    (nvReadDone exampleNvDead [1, 2, 3] 3 []).buffer = none ∧
    (nvReadDone exampleNvDead [1, 2, 3] 3 []).hw.heldBuf = none ∧
    (nvReadDone exampleNvDead [1, 2, 3] 3 []).hw.busy = false ∧
    (nvReadDone exampleNvDead [1, 2, 3] 3 []).current_user = none ∧
    (nvReadDone exampleNvDead [1, 2, 3] 3 []).upcalls = [] ∧
    (nvReadDone exampleNvDead [1, 2, 3] 3 []).kernelCbs = [] :=
  ⟨rfl, rfl, rfl, rfl, rfl, rfl⟩

/-- Claim C7: in the shared-PWM arbiter, from idle: client 1's start runs
the hardware immediately and makes 1 the in-flight owner; client 2's start
while 1 is in flight only stores the operation in 2's pending slot without
touching the hardware; 1's stop stops the hardware and the ensuing
dispatch finds 2's pending request, starts it, and makes 2 the owner. -/
theorem claim_C7 :
    (pwmRun [.add 1, .add 2, .start 1 440 50]).inflight = some 1 ∧
    (pwmRun [.add 1, .add 2, .start 1 440 50]).hwLog = [.start 1 440 50] ∧
    (pwmRun [.add 1, .add 2, .start 1 440 50, .start 2 220 25]).inflight = some 1 ∧
    (pwmRun [.add 1, .add 2, .start 1 440 50, .start 2 220 25]).hwLog =
      [.start 1 440 50] ∧
    pwmOpOf (pwmRun [.add 1, .add 2, .start 1 440 50, .start 2 220 25]) 2 =
      some (.simple 220 25) ∧
    (pwmRun [.add 1, .add 2, .start 1 440 50, .start 2 220 25, .stop 1]).inflight =
      some 2 ∧
    (pwmRun [.add 1, .add 2, .start 1 440 50, .start 2 220 25, .stop 1]).hwLog =
      [.start 1 440 50, .stop 1, .start 2 220 25] ∧
    pwmOpOf (pwmRun [.add 1, .add 2, .start 1 440 50, .start 2 220 25, .stop 1]) 2 =
      none := by
  decide

/-- Claim C10: in the RNG syscall driver a randomness request (command 1)
from a live process never returns Busy — in every driver state the request
is accepted with `success`, overwriting the process's remaining-byte count
with the new value and resetting its buffer index to zero. -/
theorem claim_C10 (s : RngState) (data pid : Nat) (app : RngApp)
    (hl : alookup pid s.apps = some app) :
    (rngCommand s 1 data pid).1 = .success ∧
    alookup pid (rngCommand s 1 data pid).2.apps = some ⟨data, 0⟩ :=
  rngCommand_always_accepts s data pid app hl

/-- Witness for C10: a process that still has 10 bytes outstanding while
the driver is mid-fill (`getting_randomness`) issues a new request for 32
bytes; it is accepted and the record becomes `⟨32, 0⟩`. -/
theorem claim_C10_witness :
    (rngCommand ⟨[(4, ⟨10, 2⟩)], true, 1⟩ 1 32 4).1 = .success ∧
    alookup 4 (rngCommand ⟨[(4, ⟨10, 2⟩)], true, 1⟩ 1 32 4).2.apps = some ⟨32, 0⟩ :=
  claim_C10 ⟨[(4, ⟨10, 2⟩)], true, 1⟩ 32 4 ⟨10, 2⟩ rfl

/-- Claim C3 (amended): while another owner's operation is in flight, a
further request from a client whose one-slot pending field is already
occupied is rejected with the state unchanged in the virtualized ADC
(`BUSY`) and in the nonvolatile-storage driver — but the nonvolatile
error is never `BUSY` and depends on who is in flight: while another
app's operation is in flight the internal buffer is out with the
hardware, and `enqueue_command` returns `RESERVE` at the buffer check
before the pending-slot check is reached (whether or not the slot is
occupied); only when the internal buffer is present — the in-flight
owner is the kernel, which uses its own buffer — does the occupied
pending slot surface as `NOMEM`.  The shared-PWM mux does not reject at
all: `start` unconditionally overwrites the pending slot with the new
operation and returns `Ok(())`. -/
theorem claim_C3 :
    (∀ (s : AdcVState) (cmd : AdcOperation) (ch pid : Nat)
       (acc : List (Option ErrorCode)) (app : AppSys),
       ch < s.numDrivers → s.current_process.isNone = false →
       alookup pid s.apps = some app → app.pending_command = true →
       advEnqueue s cmd ch pid acc = (Except.error .busy, s)) ∧
    (∀ (s : NvState) (off len pid : Nat) (a : Option ErrorCode) (app : NvApp),
       off < s.userspace_length → len ≤ s.userspace_length →
       off + len ≤ s.userspace_length → alookup pid s.apps = some app →
       app.pending_command = true → s.current_user.isNone = false →
       s.buffer.isNone = true →
       nvEnqueueCommand s .userspaceRead off len (some pid) a =
         (Except.error .reserve, s)) ∧
    (∀ (s : NvState) (off len pid : Nat) (a : Option ErrorCode) (app : NvApp),
       off < s.userspace_length → len ≤ s.userspace_length →
       off + len ≤ s.userspace_length → alookup pid s.apps = some app →
       app.pending_command = true → s.current_user.isNone = false →
       s.buffer.isNone = true →
       nvEnqueueCommand s .userspaceWrite off len (some pid) a =
         (Except.error .reserve, s)) ∧
    (∀ (s : NvState) (off len pid : Nat) (a : Option ErrorCode) (app : NvApp),
       off < s.userspace_length → len ≤ s.userspace_length →
       off + len ≤ s.userspace_length → alookup pid s.apps = some app →
       app.readBuf.length ≠ 0 → s.buffer.isNone = false →
       s.current_user.isNone = false → app.pending_command = true →
       nvEnqueueCommand s .userspaceRead off len (some pid) a =
         (Except.error .nomem, s)) ∧
    (∀ (s : NvState) (off len pid : Nat) (a : Option ErrorCode) (app : NvApp),
       off < s.userspace_length → len ≤ s.userspace_length →
       off + len ≤ s.userspace_length → alookup pid s.apps = some app →
       app.writeBuf.length ≠ 0 → s.buffer.isNone = false →
       s.current_user.isNone = false → app.pending_command = true →
       nvEnqueueCommand s .userspaceWrite off len (some pid) a =
         (Except.error .nomem, s)) ∧
    (∀ (m : MuxPwm) (id f d : Nat), (pwmStart m id f d).1 = Except.ok ()) ∧
    (∀ (devs : List PwmPinUser) (id : Nat) (op : PwmOp),
       ∀ dev ∈ pwmSetOp id op devs, dev.id = id → dev.operation = some op) :=
  ⟨fun s cmd ch pid acc app hch hcur hl hp =>
     advEnqueue_busy s cmd ch pid acc hch hcur app hl hp,
   fun s off len pid a app h1 h2 h3 hl _ _ hbuf =>
     nvEnqueue_reserve_read s off len pid a h1 h2 h3 app hl hbuf,
   fun s off len pid a app h1 h2 h3 hl _ _ hbuf =>
     nvEnqueue_reserve_write s off len pid a h1 h2 h3 app hl hbuf,
   fun s off len pid a app h1 h2 h3 hl hal hb hc hp =>
     nvEnqueue_busy_read s off len pid a h1 h2 h3 app hl hal hb hc hp,
   fun s off len pid a app h1 h2 h3 hl hal hb hc hp =>
     nvEnqueue_busy_write s off len pid a h1 h2 h3 app hl hal hb hc hp,
   fun _ _ _ _ => rfl,
   pwmSetOp_overwrites⟩

/-- Witness for C3: concrete occupied-slot states. Process 5 of the
virtualized ADC retries while its slot is pending and owner 5 is in
flight (`BUSY`); process 7 of the nonvolatile driver retries a read and a
write while its slot is pending and another app (process 3) owns the
hardware, so the internal buffer is out (`RESERVE`); the same retries
while the kernel owns the hardware with the internal buffer present
(`NOMEM`); a PWM start on a device whose slot holds `Stop` returns
`Ok(())` with the slot overwritten. -/
theorem claim_C3_witness :
    advEnqueue ⟨1, [(5, ⟨true, some .oneSample, 0⟩)], some 5, true, false, []⟩
        .oneSample 0 5 [] =
      (Except.error .busy,
       ⟨1, [(5, ⟨true, some .oneSample, 0⟩)], some 5, true, false, []⟩) ∧
    nvEnqueueCommand { exampleNvStuck with current_user := some (.app 3) }
        .userspaceRead 1 2 (some 7) none =
      (Except.error .reserve,
       { exampleNvStuck with current_user := some (.app 3) }) ∧
    nvEnqueueCommand
        { exampleNvStuck with
            apps := [(7, { pending_command := true, command := .userspaceWrite,
                           offset := 1, length := 2, writeBuf := [0, 0] })]
            current_user := some (.app 3) }
        .userspaceWrite 1 2 (some 7) none =
      (Except.error .reserve,
       { exampleNvStuck with
           apps := [(7, { pending_command := true, command := .userspaceWrite,
                          offset := 1, length := 2, writeBuf := [0, 0] })]
           current_user := some (.app 3) }) ∧
    nvEnqueueCommand
        { exampleNvStuck with buffer := some [9], current_user := some .kernel }
        .userspaceRead 1 2 (some 7) none =
      (Except.error .nomem,
       { exampleNvStuck with buffer := some [9], current_user := some .kernel }) ∧
    nvEnqueueCommand
        { exampleNvStuck with
            apps := [(7, { pending_command := true, command := .userspaceWrite,
                           offset := 1, length := 2, writeBuf := [0, 0] })]
            buffer := some [9]
            current_user := some .kernel }
        .userspaceWrite 1 2 (some 7) none =
      (Except.error .nomem,
       { exampleNvStuck with
           apps := [(7, { pending_command := true, command := .userspaceWrite,
                          offset := 1, length := 2, writeBuf := [0, 0] })]
           buffer := some [9]
           current_user := some .kernel }) ∧
    (pwmStart pwmInit 1 2 3).1 = Except.ok () ∧
    (⟨1, some (.simple 2 3)⟩ : PwmPinUser).operation = some (.simple 2 3) :=
  ⟨claim_C3.1 _ .oneSample 0 5 [] ⟨true, some .oneSample, 0⟩ (by decide) rfl rfl rfl,
   claim_C3.2.1 _ 1 2 7 none
     { pending_command := true, command := .userspaceRead,
       offset := 1, length := 2, readBuf := [0, 0] }
     (by decide) (by decide) (by decide) rfl rfl rfl rfl,
   claim_C3.2.2.1 _ 1 2 7 none
     { pending_command := true, command := .userspaceWrite,
       offset := 1, length := 2, writeBuf := [0, 0] }
     (by decide) (by decide) (by decide) rfl rfl rfl rfl,
   claim_C3.2.2.2.1 _ 1 2 7 none
     { pending_command := true, command := .userspaceRead,
       offset := 1, length := 2, readBuf := [0, 0] }
     (by decide) (by decide) (by decide) rfl (by decide) rfl rfl rfl,
   claim_C3.2.2.2.2.1 _ 1 2 7 none
     { pending_command := true, command := .userspaceWrite,
       offset := 1, length := 2, writeBuf := [0, 0] }
     (by decide) (by decide) (by decide) rfl (by decide) rfl rfl rfl,
   claim_C3.2.2.2.2.2.1 pwmInit 1 2 3,
   claim_C3.2.2.2.2.2.2 [⟨1, some .stop⟩] 1 (.simple 2 3) ⟨1, some (.simple 2 3)⟩
     (by decide) rfl⟩

/-- Counterexample for C3 as frozen: in the shared-PWM mux, device 2's
slot already holds `Simple 220 25` while device 1 is in flight; a further
`start(100, 10)` from client 2 is not rejected with Busy — it returns
`Ok(())` and the previously queued operation is overwritten. -/
theorem claim_C3_counterexample :
    pwmOpOf (pwmRun [.add 1, .add 2, .start 1 440 50, .start 2 220 25]) 2 =
      some (.simple 220 25) ∧
    (pwmStart (pwmRun [.add 1, .add 2, .start 1 440 50, .start 2 220 25])
        2 100 10).1 = Except.ok () ∧
    pwmOpOf (pwmStart (pwmRun [.add 1, .add 2, .start 1 440 50, .start 2 220 25])
        2 100 10).2 2 = some (.simple 100 10) :=
  ⟨by decide, rfl, by decide⟩

/-- Claim C5 (amended): when the hardware synchronously rejects a start
issued for a request made while idle, the virtualized ADC does not
surface the reported reason — `enqueue_command` still returns `Ok` while
the arbiter is left idle with no owner; the shared-PWM mux likewise
ignores the hardware result: `start` always returns `Ok(())` and, from an
idle mux with a registered device, records the caller as the in-flight
owner regardless. -/
theorem claim_C5 :
    (∀ (s : AdcVState) (cmd : AdcOperation) (ch pid : Nat) (e : ErrorCode)
       (acc' : List (Option ErrorCode)),
       ch < s.numDrivers → s.current_process = none → s.hwBusy = false →
       (∀ p a, alookup p s.apps = some a → a.pending_command = false) →
       advEnqueue s cmd ch pid (some e :: acc') = (Except.ok (), s)) ∧
    (∀ (m : MuxPwm) (id f d : Nat), (pwmStart m id f d).1 = Except.ok ()) ∧
    (∀ (m : MuxPwm) (id f d : Nat),
       m.inflight = none → (∀ dev ∈ m.devices, dev.operation = none) →
       (pwmFindDev id m.devices).isSome →
       (pwmStart m id f d).2.inflight = some id) :=
  ⟨fun s cmd ch pid e acc' hch hcur hb hfree =>
     advEnqueue_reject s cmd ch pid e acc' hch hcur hb hfree,
   fun _ _ _ _ => rfl,
   fun m id f d h1 h2 h3 => (pwmStart_idle m id f d h1 h2 h3).2.1⟩

/-- Witness for C5: a hardware rejection (`FAIL`) of process 4's request
on the idle one-channel virtualized ADC still yields `Ok` with the state
unchanged; a PWM start on the idle mux returns `Ok(())` and makes the
caller the owner. -/
theorem claim_C5_witness :
    advEnqueue (advInit 1) .oneSample 0 4 [some .fail] =
      (Except.ok (), advInit 1) ∧
    (pwmStart pwmInit 0 1 2).1 = Except.ok () ∧
    (pwmStart (pwmAdd pwmInit 1) 1 440 50).2.inflight = some 1 :=
  ⟨claim_C5.1 (advInit 1) .oneSample 0 4 .fail [] (by decide) rfl rfl
     (by intro p a h; simp [advInit, alookup] at h),
   claim_C5.2.1 pwmInit 0 1 2,
   claim_C5.2.2 (pwmAdd pwmInit 1) 1 440 50 rfl (by decide) (by decide)⟩

/-- Counterexample for C5 as frozen: process 5 issues command 1 on the
idle virtualized ADC and the hardware synchronously rejects with `FAIL`;
the syscall nevertheless returns `success` (no Rejected result carrying
the reason reaches the caller), and the arbiter is idle. -/
theorem claim_C5_counterexample :
    (advCommand (advStep (advInit 1) (.spawn 5)) 1 0 5 [some .fail]).1 =
      CommandReturn.success ∧
    (advCommand (advStep (advInit 1) (.spawn 5)) 1 0 5 [some .fail]).2.current_process =
      none := by
  decide

/-- Claim C9 (amended): command opcode 0 is an unconditional
driver-present probe for the virtualized ADC, the nonvolatile-storage
driver and the RNG driver — its result never depends on the arbiter
state; the dedicated ADC however runs its single-owner guard before the
opcode dispatch, so while an operation is in flight any command
(including opcode 0) from a process other than the owner fails with
`NOMEM`. -/
theorem claim_C9 :
    (∀ (s : AdcVState) (ch pid : Nat) (acc : List (Option ErrorCode)),
       advCommand s 0 ch pid acc = (.successU32 s.numDrivers, s)) ∧
    (∀ (s : NvState) (off len pid : Nat) (a : Option ErrorCode),
       nvCommand s 0 off len pid a = (.success, s)) ∧
    (∀ (s : RngState) (data pid : Nat), rngCommand s 0 data pid = (.success, s)) ∧
    (∀ (s : DedState) (num ch freq pid owner : Nat) (accept : Bool),
       s.processid = some owner → s.active = true → owner ≠ pid →
       dedCommand s num ch freq pid accept = (.failure .nomem, s)) :=
  ⟨fun _ _ _ _ => rfl, fun _ _ _ _ _ => rfl, fun _ _ _ => rfl,
   fun s num ch freq pid owner accept hpid hact hne =>
     dedCommand_guard s num ch freq pid accept owner hpid hact (eq_false hne)⟩

/-- Witness for C9: opcode-0 probes on concrete states of the three
uniform drivers, and a dedicated-ADC state owned by the active process 1
in which process 2's opcode-0 probe fails with `NOMEM`. -/
theorem claim_C9_witness :
    advCommand (advInit 3) 0 0 9 [] = (.successU32 (advInit 3).numDrivers, advInit 3) ∧
    nvCommand exampleNvStuck 0 0 0 9 none = (.success, exampleNvStuck) ∧
    rngCommand ⟨[], false, 0⟩ 0 5 9 = (.success, ⟨[], false, 0⟩) ∧
    dedCommand { dedInit 2 with active := true, processid := some 1 } 0 0 0 2 true =
      (.failure .nomem, { dedInit 2 with active := true, processid := some 1 }) :=
  ⟨claim_C9.1 (advInit 3) 0 9 [],
   claim_C9.2.1 exampleNvStuck 0 0 9 none,
   claim_C9.2.2.1 ⟨[], false, 0⟩ 5 9,
   claim_C9.2.2.2 _ 0 0 0 2 1 true rfl rfl (by decide)⟩

/-- Counterexample for C9 as frozen: after process 1 starts a single
sample on the dedicated ADC, the opcode-0 probe from process 2 does not
succeed — it fails with `NOMEM`, so opcode 0 is not independent of which
process owns the resource. -/
theorem claim_C9_counterexample :
    (dedCommand
        (dedRun 2 [.spawn 1 [] [] 0 0, .spawn 2 [] [] 0 0, .command 1 1 0 0 true])
        0 0 0 2 true).1 = .failure .nomem := by
  decide

/-- Claim C4 (amended): dispatch scans the client/process records in the
structural order of the underlying container — for the PWM mux this is
reverse registration order because `add_to_mux` pushes at the head; the
virtualized-ADC scan skips non-pending records, removes the first pending
operation it finds, and attempts to start it: an accepted start makes the
candidate the owner, a rejected start drops the removed operation (never
requeued) and continues the scan with the next candidate, and when no
candidate starts the arbiter is left idle; the nonvolatile driver serves
the kernel's pending slot before scanning any process records, and on a
failed app dispatch drops the removed operation and continues the scan
from whatever state the failed attempt left (including its stale
`current_user`). -/
theorem claim_C4 :
    (∀ (m : MuxPwm) (id : Nat), (pwmAdd m id).devices = ⟨id, none⟩ :: m.devices) ∧
    (∀ (s : AdcVState) (cmd0 : AdcOperation) (acc : List (Option ErrorCode))
       (pid : Nat) (rest : List Nat) (app : AppSys),
       alookup pid s.apps = some app → app.pending_command = false →
       advRunNextAux s cmd0 acc (pid :: rest) = advRunNextAux s cmd0 acc rest) ∧
    (∀ (s : AdcVState) (cmd0 : AdcOperation) (acc : List (Option ErrorCode))
       (pid : Nat) (rest : List Nat) (app : AppSys),
       alookup pid s.apps = some app → app.pending_command = true →
       app.channel < s.numDrivers → acc.headD none = none →
       advRunNextAux s cmd0 acc (pid :: rest) =
         { s with
           apps := aupdate pid (fun a =>
             { a with pending_command := false, command := none }) s.apps
           current_process := some pid
           violation := s.violation || s.hwBusy
           hwBusy := true }) ∧
    (∀ (s : AdcVState) (cmd0 : AdcOperation) (acc : List (Option ErrorCode))
       (pid : Nat) (rest : List Nat) (app : AppSys) (e : ErrorCode),
       alookup pid s.apps = some app → app.pending_command = true →
       app.channel < s.numDrivers → acc.headD none = some e →
       advRunNextAux s cmd0 acc (pid :: rest) =
         advRunNextAux
           { s with
             apps := aupdate pid (fun a =>
               { a with pending_command := false, command := none }) s.apps
             current_process := none
             violation := s.violation || s.hwBusy }
           (app.command.getD cmd0) acc.tail rest) ∧
    (∀ (s : AdcVState) (acc : List (Option ErrorCode)),
       s.hwBusy = false → s.current_process = none → s.violation = false →
       (advRunNext s acc).hwBusy = false →
       (advRunNext s acc).current_process = none) ∧
    (∀ (s : NvState) (acc : List (Option ErrorCode)) (kb : List Nat),
       s.kernel_pending_command = true → s.kernel_buffer = some kb →
       acc.headD none = none →
       (nvCheckQueue s acc).current_user = some .kernel ∧
       (nvCheckQueue s acc).hw.busy = true) ∧
    (∀ (s : NvState) (acc : List (Option ErrorCode)) (pid : Nat) (rest : List Nat)
       (app : NvApp),
       alookup pid s.apps = some app → app.pending_command = true →
       nvCheckQueueApps s acc (pid :: rest) =
         (match nvUserspaceCallDriver
             { s with
               apps := aupdate pid (fun a => { a with pending_command := false }) s.apps
               current_user := some (.app pid) }
             app.command app.offset app.length (acc.headD none) with
          | (.ok _, s3) => s3
          | (.error _, s3) => nvCheckQueueApps s3 acc.tail rest)) :=
  ⟨fun _ _ => rfl,
   fun s cmd0 acc pid rest app hl hp => advRunNextAux_skip s cmd0 acc pid rest app hl hp,
   fun s cmd0 acc pid rest app hl hp hch hacc =>
     advRunNextAux_accept s cmd0 acc pid rest app hl hp hch hacc,
   fun s cmd0 acc pid rest app e hl hp hch hacc =>
     advRunNextAux_reject s cmd0 acc pid rest app e hl hp hch hacc,
   fun s acc hb hcur hv hno => advRunNext_no_start_idle s acc hb hcur hv hno,
   fun s acc kb hk hb hacc => nvCheckQueue_kernel_first s acc kb hk hb hacc,
   fun s acc pid rest app hl hp => nvCheckQueueApps_dispatch s acc pid rest app hl hp⟩

/-- Witness for C4: the scan equations instantiated on concrete states — a
non-pending process 1 is skipped; a pending process 2 is dispatched and
becomes owner when the hardware accepts; with a rejecting hardware its
operation is dropped and the scan continues; the empty-queue dispatch
leaves the arbiter idle; a pending kernel slot wins the nonvolatile
dispatch; and the nonvolatile app scan removes process 7's operation and
attempts it. -/
theorem claim_C4_witness :
    (pwmAdd pwmInit 3).devices = ⟨3, none⟩ :: pwmInit.devices ∧
    advRunNextAux ⟨1, [(1, ⟨false, none, 0⟩)], none, false, false, []⟩
        .oneSample [] (1 :: []) =
      advRunNextAux ⟨1, [(1, ⟨false, none, 0⟩)], none, false, false, []⟩
        .oneSample [] [] ∧
    advRunNextAux ⟨1, [(2, ⟨true, some .oneSample, 0⟩)], none, false, false, []⟩
        .oneSample [] (2 :: []) =
      { (⟨1, [(2, ⟨true, some .oneSample, 0⟩)], none, false, false, []⟩ : AdcVState) with
        apps := aupdate 2 (fun a =>
          { a with pending_command := false, command := none })
          [(2, ⟨true, some .oneSample, 0⟩)]
        current_process := some 2
        violation := false || false
        hwBusy := true } ∧
    advRunNextAux ⟨1, [(2, ⟨true, some .oneSample, 0⟩)], none, false, false, []⟩
        .oneSample [some .fail] (2 :: []) =
      advRunNextAux
        { (⟨1, [(2, ⟨true, some .oneSample, 0⟩)], none, false, false, []⟩ : AdcVState) with
          apps := aupdate 2 (fun a =>
            { a with pending_command := false, command := none })
            [(2, ⟨true, some .oneSample, 0⟩)]
          current_process := none
          violation := false || false }
        ((some AdcOperation.oneSample).getD .oneSample) [some .fail].tail [] ∧
    (advRunNext (advInit 1) []).current_process = none ∧
    ((nvCheckQueue
        { exampleNvStuck with
          kernel_pending_command := true
          kernel_buffer := some [1, 2] } []).current_user = some .kernel ∧
     (nvCheckQueue
        { exampleNvStuck with
          kernel_pending_command := true
          kernel_buffer := some [1, 2] } []).hw.busy = true) ∧
    nvCheckQueueApps exampleNvStuck [] (7 :: []) =
      (match nvUserspaceCallDriver
          { exampleNvStuck with
            apps := aupdate 7 (fun a => { a with pending_command := false })
              exampleNvStuck.apps
            current_user := some (.app 7) }
          NvCommand.userspaceRead 1 2 (([] : List (Option ErrorCode)).headD none) with
       | (.ok _, s3) => s3
       | (.error _, s3) => nvCheckQueueApps s3 ([] : List (Option ErrorCode)).tail []) :=
  ⟨claim_C4.1 pwmInit 3,
   claim_C4.2.1 _ .oneSample [] 1 [] ⟨false, none, 0⟩ rfl rfl,
   claim_C4.2.2.1 _ .oneSample [] 2 [] ⟨true, some .oneSample, 0⟩ rfl rfl
     (by decide) rfl,
   claim_C4.2.2.2.1 _ .oneSample [some .fail] 2 [] ⟨true, some .oneSample, 0⟩
     .fail rfl rfl (by decide) rfl,
   claim_C4.2.2.2.2.1 (advInit 1) [] rfl rfl rfl rfl,
   claim_C4.2.2.2.2.2.1 _ [] [1, 2] rfl rfl rfl,
   claim_C4.2.2.2.2.2.2 exampleNvStuck [] 7 []
     { pending_command := true, command := .userspaceRead,
       offset := 1, length := 2, readBuf := [0, 0] } rfl rfl⟩

/-- Counterexample for C4 as frozen: after registering clients 1, 2, 3 in
that order on the PWM mux, queueing operations for 1 and then 2 while 3
is in flight, client 3's stop dispatches client 2 — the latest-registered
pending client, not the first-registered client 1, so the scan is not in
registration order; and in the nonvolatile driver a dispatch attempt for
process 7 that fails synchronously leaves `current_user` still set to
process 7 instead of returning the arbiter to idle. -/
theorem claim_C4_counterexample :
    (pwmRun [.add 1, .add 2, .add 3, .start 3 9 9, .start 1 11 11,
        .start 2 22 22, .stop 3]).inflight = some 2 ∧
    (nvCheckQueue exampleNvStuck []).current_user = some (.app 7) ∧
    (nvCheckQueue exampleNvStuck []).hw.busy = false := by
  refine ⟨by decide, rfl, rfl⟩

/-- Claim C6: a hardware completion arriving while the recorded owner's
process record no longer exists is silently dropped — no upcall is
delivered to anyone and no error is raised — and the arbiter clears the
owner and proceeds to dispatch the next pending request: the virtualized
ADC completion equals plain dispatch from the owner-cleared state, and
the nonvolatile `write_done` equals the queue check from the
owner-cleared state. -/
theorem claim_C6 :
    (∀ (s : AdcVState) (sample : Nat) (acc : List (Option ErrorCode)) (pid : Nat),
       s.hwBusy = true → s.current_process = some pid →
       alookup pid s.apps = none →
       advStep s (.sampleReady sample acc) =
         advRunNext { s with hwBusy := false, current_process := none } acc ∧
       (advStep s (.sampleReady sample acc)).upcalls = s.upcalls) ∧
    (∀ (s : NvState) (buffer : List Nat) (length : Nat)
       (acc : List (Option ErrorCode)) (pid : Nat),
       s.current_user = some (.app pid) → alookup pid s.apps = none →
       nvWriteDone s buffer length acc =
         nvCheckQueue
           { s with current_user := none,
                    hw := { s.hw with busy := false, heldBuf := none } } acc ∧
       (nvWriteDone s buffer length acc).upcalls = s.upcalls) := by
  refine ⟨fun s sample acc pid hb hcur hl =>
      ⟨advStep_dead_owner s sample acc pid hb hcur hl, ?_⟩,
    fun s buffer length acc pid hcur hl =>
      ⟨nvWriteDone_dead s buffer length acc pid hcur hl, ?_⟩⟩
  · rw [advStep_dead_owner s sample acc pid hb hcur hl, advRunNext_upcalls]
  · rw [nvWriteDone_dead s buffer length acc pid hcur hl, nvCheckQueue_upcalls]

/-- Witness for C6: a completion for vanished process 3 on the busy
virtualized ADC, and a `write_done` for vanished process 7 on the
nonvolatile driver: both reduce to plain dispatch with no upcall added. -/
theorem claim_C6_witness :
    (advStep ⟨1, [], some 3, true, false, []⟩ (.sampleReady 7 []) =
       advRunNext { (⟨1, [], some 3, true, false, []⟩ : AdcVState) with
         hwBusy := false, current_process := none } [] ∧
     (advStep ⟨1, [], some 3, true, false, []⟩ (.sampleReady 7 [])).upcalls =
       (⟨1, [], some 3, true, false, []⟩ : AdcVState).upcalls) ∧
    (nvWriteDone exampleNvDead [9] 1 [] =
       nvCheckQueue
         { exampleNvDead with
           current_user := none
           hw := { exampleNvDead.hw with busy := false, heldBuf := none } } [] ∧
     (nvWriteDone exampleNvDead [9] 1 []).upcalls = exampleNvDead.upcalls) :=
  ⟨claim_C6.1 ⟨1, [], some 3, true, false, []⟩ 7 [] 3 rfl rfl rfl,
   claim_C6.2 exampleNvDead [9] 1 [] 7 rfl rfl⟩

/-- Claim C8: for a buffered capture of `n ≤ 128` samples on the
dedicated ADC (client buffer of `2*n` bytes, smaller than one 128-sample
hardware chunk), the request round asks the hardware for exactly
`min(n, chunk) = n` samples (plus a zero-length follow-up buffer); and on
the chunk-ready callback exactly the `n` valid samples are copied into
the process buffer as two bytes each from offset 0, all hardware buffers
are reclaimed, the capture is finished, and exactly one completion upcall
is delivered encoding the mode (`SingleBuffer = 2`), the length and
channel (`n*256 + channel % 256`), and the buffer pointer. -/
theorem claim_C8 :
    (∀ (nch pid n ch freq ptr p1 : Nat), 0 < n → n ≤ 128 → ch < nch →
      dedCommand
        { dedInit nch with
            apps := [(pid, { buf0 := List.replicate (2 * n) 0, ptr0 := ptr, ptr1 := p1 })] }
        3 ch freq pid true =
      (CommandReturn.success,
       { active := true
         mode := .singleBuffer
         channel := ch
         numChannels := nch
         resolutionBits := 12
         voltageRefMv := none
         processid := some pid
         apps := [(pid,
           { app_buf_offset := 0, samples_remaining := 0, samples_outstanding := n,
             next_samples_outstanding := 0, using_app_buf0 := true,
             buf0 := List.replicate (2 * n) 0, buf1 := [], ptr0 := ptr, ptr1 := p1 })]
         adcBuf1 := none
         adcBuf2 := none
         adcBuf3 := some (List.replicate 128 0)
         hw := { op := some .highspeed
                 bufs := [(List.replicate 128 0, n), (List.replicate 128 0, 0)]
                 chanReq := ch
                 freqReq := freq
                 violation := false }
         upcalls := [] })) ∧
    (∀ (nch pid n ch freq ptr p1 : Nat) (samples : List Nat),
      0 < n → n ≤ 128 → samples.length = n →
      dedStep
        { active := true
          mode := .singleBuffer
          channel := ch
          numChannels := nch
          resolutionBits := 12
          voltageRefMv := none
          processid := some pid
          apps := [(pid,
            { app_buf_offset := 0, samples_remaining := 0, samples_outstanding := n,
              next_samples_outstanding := 0, using_app_buf0 := true,
              buf0 := List.replicate (2 * n) 0, buf1 := [], ptr0 := ptr, ptr1 := p1 })]
          adcBuf1 := none
          adcBuf2 := none
          adcBuf3 := some (List.replicate 128 0)
          hw := { op := some .highspeed
                  bufs := [(List.replicate 128 0, n), (List.replicate 128 0, 0)]
                  chanReq := ch
                  freqReq := freq
                  violation := false }
          upcalls := [] }
        (.samplesReady samples []) =
      { active := false
        mode := .noMode
        channel := ch
        numChannels := nch
        resolutionBits := 12
        voltageRefMv := none
        processid := some pid
        apps := [(pid,
          { app_buf_offset := 0, samples_remaining := 0, samples_outstanding := 0,
            next_samples_outstanding := 0, using_app_buf0 := true,
            buf0 := samplesLE samples, buf1 := [], ptr0 := ptr, ptr1 := p1 })]
        adcBuf1 := some (samples ++ List.replicate (128 - n) 0)
        adcBuf2 := some (List.replicate 128 0)
        adcBuf3 := some (List.replicate 128 0)
        hw := { op := none
                bufs := []
                chanReq := ch
                freqReq := freq
                violation := false }
        upcalls := [⟨pid, 0, 2, n * 256 + ch % 256, ptr⟩] }) :=
  ⟨fun nch pid n ch freq ptr p1 h1 h2 h3 =>
     dedSampleBufferScenario nch pid n ch freq ptr p1 h1 h2 h3,
   fun nch pid n ch freq ptr p1 samples h1 h2 h3 =>
     dedSamplesReadyScenario nch pid n ch freq ptr p1 samples h1 h2 h3⟩

/-- Witness for C8: three samples into a 6-byte client buffer on a
two-channel ADC — the request round asks for 3 samples, and the callback
with samples `[257, 258, 515]` fills the buffer with their little-endian
bytes and delivers the single completion upcall. -/
theorem claim_C8_witness :
    dedCommand
      { dedInit 2 with
          apps := [(1, { buf0 := List.replicate (2 * 3) 0, ptr0 := 7, ptr1 := 8 })] }
      3 1 4 1 true =
    (CommandReturn.success,
     { active := true
       mode := .singleBuffer
       channel := 1
       numChannels := 2
       resolutionBits := 12
       voltageRefMv := none
       processid := some 1
       apps := [(1,
         { app_buf_offset := 0, samples_remaining := 0, samples_outstanding := 3,
           next_samples_outstanding := 0, using_app_buf0 := true,
           buf0 := List.replicate (2 * 3) 0, buf1 := [], ptr0 := 7, ptr1 := 8 })]
       adcBuf1 := none
       adcBuf2 := none
       adcBuf3 := some (List.replicate 128 0)
       hw := { op := some .highspeed
               bufs := [(List.replicate 128 0, 3), (List.replicate 128 0, 0)]
               chanReq := 1
               freqReq := 4
               violation := false }
       upcalls := [] }) ∧
    dedStep
      { active := true
        mode := .singleBuffer
        channel := 1
        numChannels := 2
        resolutionBits := 12
        voltageRefMv := none
        processid := some 1
        apps := [(1,
          { app_buf_offset := 0, samples_remaining := 0, samples_outstanding := 3,
            next_samples_outstanding := 0, using_app_buf0 := true,
            buf0 := List.replicate (2 * 3) 0, buf1 := [], ptr0 := 7, ptr1 := 8 })]
        adcBuf1 := none
        adcBuf2 := none
        adcBuf3 := some (List.replicate 128 0)
        hw := { op := some .highspeed
                bufs := [(List.replicate 128 0, 3), (List.replicate 128 0, 0)]
                chanReq := 1
                freqReq := 4
                violation := false }
        upcalls := [] }
      (.samplesReady [257, 258, 515] []) =
    { active := false
      mode := .noMode
      channel := 1
      numChannels := 2
      resolutionBits := 12
      voltageRefMv := none
      processid := some 1
      apps := [(1,
        { app_buf_offset := 0, samples_remaining := 0, samples_outstanding := 0,
          next_samples_outstanding := 0, using_app_buf0 := true,
          buf0 := samplesLE [257, 258, 515], buf1 := [], ptr0 := 7, ptr1 := 8 })]
      adcBuf1 := some ([257, 258, 515] ++ List.replicate (128 - 3) 0)
      adcBuf2 := some (List.replicate 128 0)
      adcBuf3 := some (List.replicate 128 0)
      hw := { op := none
              bufs := []
              chanReq := 1
              freqReq := 4
              violation := false }
      upcalls := [⟨1, 0, 2, 3 * 256 + 1 % 256, 7⟩] } :=
  ⟨claim_C8.1 2 1 3 1 4 7 8 (by decide) (by decide) (by decide),
   claim_C8.2 2 1 3 1 4 7 8 [257, 258, 515] (by decide) (by decide) rfl⟩

end Tock
